import Mathlib

/-!
Verification of the PMX binary-model reader (header decoding, one-pass
structural scan, and per-section lazy decoders) against its design
specification.  Byte buffers are modelled as `List Nat` (each entry < 256 in
well-formed inputs), cursor positions as `Nat`, and 32-bit floats by their
little-endian bit patterns (`Nat`), since the reader never interprets float
values, only moves them.
-/

set_option maxRecDepth 100000

namespace Pmx

/-- Decidable equality of reader results. -/
instance {ε α : Type} [DecidableEq ε] [DecidableEq α] : DecidableEq (Except ε α) := fun x y => by
  cases x <;> cases y
  case error.error e f =>
    exact if h : e = f then .isTrue (by rw [h]) else .isFalse (by intro hh; injection hh; exact h ‹_›)
  case ok.ok a b =>
    exact if h : a = b then .isTrue (by rw [h]) else .isFalse (by intro hh; injection hh; exact h ‹_›)
  case error.ok e a => exact .isFalse (by intro hh; exact Except.noConfusion hh)
  case ok.error a e => exact .isFalse (by intro hh; exact Except.noConfusion hh)

/-- Text encodings recognized by the format (header byte 0 of the 8-byte
header block): 0 = UTF-16LE, 1 = UTF-8. -/
inductive Encoding
  | utf16
  | utf8
deriving DecidableEq, Repr

/-- The parsed header: the text encoding, the extended-UV channel count and
the six per-category index byte widths. -/
structure Header where
  encoding : Encoding
  extended_uv : Nat
  vertex_index_size : Nat
  texture_index_size : Nat
  material_index_size : Nat
  bone_index_size : Nat
  morph_index_size : Nat
  rigid_index_size : Nat
deriving DecidableEq, Repr

/-- The reader's error taxonomy.  `ioError` stands for the I/O error kind
raised when a read runs past the end of the buffer. -/
inductive Error
  | unsupportedVersion
  | invalidHeader (msg : String)
  | invalidData (msg : String)
  | ioError
deriving DecidableEq, Repr

/-- Fallible computations over an immutable byte buffer with a cursor
position (the `Seeker`/`Cursor` side of the reader): a function from the
buffer and the current position to either an error or a result paired with
the new position. -/
def M (α : Type) : Type := List Nat → Nat → Except Error (α × Nat)

instance : Monad M where
  pure a := fun _ pos => .ok (a, pos)
  bind m f := fun buf pos =>
    match m buf pos with
    | .ok (a, pos') => f a buf pos'
    | .error e => .error e

@[simp]
theorem bind_apply {α β : Type} (m : M α) (f : α → M β) (buf : List Nat) (pos : Nat) :
    (m >>= f) buf pos =
      match m buf pos with
      | .ok (a, p) => f a buf p
      | .error e => .error e := rfl

theorem bind_ok {α β : Type} {m : M α} {f : α → M β} {buf : List Nat} {pos : Nat}
    {a : α} {p : Nat} (h : m buf pos = .ok (a, p)) :
    (m >>= f) buf pos = f a buf p := by
  rw [bind_apply, h]

theorem bind_err {α β : Type} {m : M α} {f : α → M β} {buf : List Nat} {pos : Nat}
    {e : Error} (h : m buf pos = .error e) :
    (m >>= f) buf pos = .error e := by
  rw [bind_apply, h]

@[simp]
theorem pure_apply {α : Type} (a : α) (buf : List Nat) (pos : Nat) :
    (pure a : M α) buf pos = .ok (a, pos) := rfl

@[simp]
theorem ite_apply {α : Type} (c : Prop) [Decidable c] (m₁ m₂ : M α)
    (buf : List Nat) (pos : Nat) :
    (if c then m₁ else m₂) buf pos = if c then m₁ buf pos else m₂ buf pos := by
  split <;> rfl

/-- Raising an `Error` inside a reader computation (Rust `return Err(...)`). -/
def throwM {α : Type} (e : Error) : M α := fun _ _ => .error e

@[simp]
theorem throwM_apply {α : Type} (e : Error) (buf : List Nat) (pos : Nat) :
    (throwM e : M α) buf pos = .error e := rfl

/-- Models `Seeker::position`. -/
def position : M Nat := fun _ pos => .ok (pos, pos)

@[simp]
theorem position_apply (buf : List Nat) (pos : Nat) :
    position buf pos = .ok (pos, pos) := rfl

/-- Models `Seeker::seek_bin`: skip `len` bytes, returning the pre-skip offset.
Seeking past the end of an in-memory cursor succeeds (only reads fail). -/
def seekBin (len : Nat) : M Nat := fun _ pos => .ok (pos, pos + len)

@[simp]
theorem seekBin_apply (len : Nat) (buf : List Nat) (pos : Nat) :
    seekBin len buf pos = .ok (pos, pos + len) := rfl

/-- A one-byte read (`read_exact` into a 1-byte array). -/
def readU8 : M Nat := fun buf pos =>
  match buf.get? pos with
  | some b => .ok (b, pos + 1)
  | none => .error .ioError

@[simp]
theorem readU8_apply (buf : List Nat) (pos : Nat) :
    readU8 buf pos =
      match buf.get? pos with
      | some b => .ok (b, pos + 1)
      | none => .error .ioError := rfl

theorem readU8_ok {buf : List Nat} {pos b : Nat} (h : buf.get? pos = some b) :
    readU8 buf pos = .ok (b, pos + 1) := by
  rw [readU8_apply, h]

/-- Models `read_exact` into an `n`-byte array. -/
def readExact (n : Nat) : M (List Nat) := fun buf pos =>
  if pos + n ≤ buf.length then .ok ((buf.drop pos).take n, pos + n)
  else .error .ioError

@[simp]
theorem readExact_apply (n : Nat) (buf : List Nat) (pos : Nat) :
    readExact n buf pos =
      if pos + n ≤ buf.length then .ok ((buf.drop pos).take n, pos + n)
      else .error .ioError := rfl

/-- Models `Seeker::read_u16` (`u16::from_le_bytes` over two bytes). -/
def readU16 : M Nat := do
  let b0 ← readU8
  let b1 ← readU8
  pure (b0 + 256 * b1)

/-- Models `Seeker::read_u32` (`u32::from_le_bytes` over four bytes). -/
def readU32 : M Nat := do
  let b0 ← readU8
  let b1 ← readU8
  let b2 ← readU8
  let b3 ← readU8
  pure (b0 + 256 * b1 + 65536 * b2 + 16777216 * b3)

/-- Models `Seeker::seek_string`: record the start offset, read the 4-byte length,
skip that many bytes, and return the start offset. -/
def seekString : M Nat := do
  let first ← position
  let len ← readU32
  let _ ← seekBin len
  pure first

/-- Models a scanner loop, Rust for _ in 0..n with a monadic body. -/
def repeatM (n : Nat) (body : M Unit) : M Unit :=
  match n with
  | 0 => pure ()
  | n + 1 => do
    body
    repeatM n body

/-- The vertex-weight tag dispatch in `Indices::new` (weight kinds 0-3 skip
their payload; anything else is invalid data). -/
def scanWeight (hdr : Header) (tag : Nat) : M Unit :=
  if tag = 0 then do
    let _ ← seekBin hdr.bone_index_size
    pure ()
  else if tag = 1 then do
    let _ ← seekBin (hdr.bone_index_size * 2 + 4)
    pure ()
  else if tag = 2 then do
    let _ ← seekBin (hdr.bone_index_size * 4 + 4 * 4)
    pure ()
  else if tag = 3 then do
    let _ ← seekBin (hdr.bone_index_size * 2 + 4 + 4 * 3 * 3)
    pure ()
  else throwM (.invalidData "vertex weight type")

/-- One vertex record of the structural scan. -/
def scanVertexRecord (hdr : Header) : M Unit := do
  let _ ← seekBin (4 * 3)
  let _ ← seekBin (4 * 3)
  let _ ← seekBin (4 * 2)
  let _ ← seekBin (4 * 4 * hdr.extended_uv)
  let tag ← readU8
  scanWeight hdr tag
  let _ ← seekBin 4
  pure ()

/-- The face section of the structural scan: record the offset, read the
index count, reject counts not divisible by 3, and skip the flat index
list. -/
def scanFaces (hdr : Header) : M Nat := do
  let faces ← position
  let len ← readU32
  if len % 3 ≠ 0 then throwM (.invalidData "faces")
  else do
    let _ ← seekBin (hdr.vertex_index_size * len)
    pure faces

/-- The sphere-mode check in the material scan. -/
def checkSphereMode (tag : Nat) : M Unit :=
  if tag > 3 then throwM (.invalidData "material sphere mode") else pure ()

/-- The toon-kind dispatch in the material scan (0 = external texture index,
1 = shared toon byte). -/
def scanToon (hdr : Header) (tag : Nat) : M Unit :=
  if tag = 0 then do
    let _ ← seekBin hdr.texture_index_size
    pure ()
  else if tag = 1 then do
    let _ ← seekBin 1
    pure ()
  else throwM (.invalidData "material toon flag")

/-- One material record of the structural scan. -/
def scanMaterialRecord (hdr : Header) : M Unit := do
  let _ ← seekString
  let _ ← seekString
  let _ ← seekBin (16 + 12 + 4 + 12 + 1 + 16 + 4 + hdr.texture_index_size * 2)
  let sphereMode ← readU8
  checkSphereMode sphereMode
  let toonTag ← readU8
  scanToon hdr toonTag
  let _ ← seekString
  let _ ← seekBin 4
  pure ()

/-- One IK link of the structural scan: skip the bone index, read the
angle-limit byte, and skip the two limit vectors exactly when that byte
equals 1 (any other value is accepted and skips nothing). -/
def scanIkLink (hdr : Header) : M Unit := do
  let _ ← seekBin hdr.bone_index_size
  let angleLimit ← readU8
  if angleLimit = 1 then do
    let _ ← seekBin (12 + 12)
    pure ()
  else pure ()

/-- The connection-target skip of the bone scan: bit 0x0001 clear skips a
12-byte offset vector, set skips one bone index. -/
def scanBoneConnect (hdr : Header) (flags : Nat) : M Unit :=
  if flags &&& 0x0001 = 0 then do
    let _ ← seekBin 12
    pure ()
  else do
    let _ ← seekBin hdr.bone_index_size
    pure ()

/-- The additive-transform skip of the bone scan: one bone index plus a
4-byte ratio, present when flag bit 0x0100 or 0x0200 is set. -/
def scanBoneAddition (hdr : Header) (flags : Nat) : M Unit :=
  if flags &&& 0x0100 ≠ 0 ∨ flags &&& 0x0200 ≠ 0 then do
    let _ ← seekBin (hdr.bone_index_size + 4)
    pure ()
  else pure ()

/-- The fixed-rotation-pole skip of the bone scan (flag bit 0x0400). -/
def scanBoneFixedPole (flags : Nat) : M Unit :=
  if flags &&& 0x0400 ≠ 0 then do
    let _ ← seekBin 12
    pure ()
  else pure ()

/-- The local-rotation-pole skip of the bone scan (flag bit 0x0800). -/
def scanBoneLocalPole (flags : Nat) : M Unit :=
  if flags &&& 0x0800 ≠ 0 then do
    let _ ← seekBin (12 + 12)
    pure ()
  else pure ()

/-- The external-parent skip of the bone scan (flag bit 0x2000). -/
def scanBoneExternalParent (flags : Nat) : M Unit :=
  if flags &&& 0x2000 ≠ 0 then do
    let _ ← seekBin 4
    pure ()
  else pure ()

/-- The IK-block skip of the bone scan (flag bit 0x0020): target bone
index, loop count, angle, then the link list. -/
def scanBoneIk (hdr : Header) (flags : Nat) : M Unit :=
  if flags &&& 0x0020 ≠ 0 then do
    let _ ← seekBin (hdr.bone_index_size + 4 + 4)
    let link ← readU32
    repeatM link (scanIkLink hdr)
  else pure ()

/-- One bone record of the structural scan, driven by the 16-bit flag word,
with the flag-gated skips applied in source order.  Note the
additive-transform substructure is skipped when bit 0x0100 or bit 0x0200 is
set. -/
def scanBoneRecord (hdr : Header) : M Unit := do
  let _ ← seekString
  let _ ← seekString
  let _ ← seekBin (12 + hdr.bone_index_size + 4)
  let flags ← readU16
  scanBoneConnect hdr flags
  scanBoneAddition hdr flags
  scanBoneFixedPole flags
  scanBoneLocalPole flags
  scanBoneExternalParent flags
  scanBoneIk hdr flags

/-- The morph panel check in the morph scan. -/
def checkPanel (p : Nat) : M Unit :=
  if p > 4 then throwM (.invalidData "morph panel") else pure ()

/-- One material-delta entry of a kind-8 morph in the structural scan: skip
the material index, validate the op byte, then skip the fixed
16+12+4+12+16+4+16+16+16 = 112-byte parameter block. -/
def scanMorphMaterialEntry (hdr : Header) : M Unit := do
  let _ ← seekBin hdr.material_index_size
  let op ← readU8
  if op > 1 then throwM (.invalidData "morph material op")
  else do
    let _ ← seekBin (16 + 12 + 4 + 12 + 16 + 4 + 16 + 16 + 16)
    pure ()

/-- The morph-kind dispatch of the structural scan (kinds 0-8; anything
else is invalid data). -/
def scanMorphKind (hdr : Header) (ty len : Nat) : M Unit :=
  if ty = 0 then
    repeatM len (do
      let _ ← seekBin (hdr.morph_index_size + 4)
      pure ())
  else if ty = 1 then
    repeatM len (do
      let _ ← seekBin (hdr.vertex_index_size + 12)
      pure ())
  else if ty = 2 then
    repeatM len (do
      let _ ← seekBin (hdr.bone_index_size + 12 + 16)
      pure ())
  else if ty = 3 ∨ ty = 4 ∨ ty = 5 ∨ ty = 6 ∨ ty = 7 then
    repeatM len (do
      let _ ← seekBin (hdr.vertex_index_size + 16)
      pure ())
  else if ty = 8 then
    repeatM len (scanMorphMaterialEntry hdr)
  else throwM (.invalidData "morph type")

/-- One morph record of the structural scan. -/
def scanMorphRecord (hdr : Header) : M Unit := do
  let _ ← seekString
  let _ ← seekString
  let panel ← readU8
  checkPanel panel
  let ty ← readU8
  let len ← readU32
  scanMorphKind hdr ty len

/-- The display-element dispatch of the structural scan (0 = bone index,
1 = morph index). -/
def scanDisplayElement (hdr : Header) (tag : Nat) : M Unit :=
  if tag = 0 then do
    let _ ← seekBin hdr.bone_index_size
    pure ()
  else if tag = 1 then do
    let _ ← seekBin hdr.morph_index_size
    pure ()
  else throwM (.invalidData "display group element")

/-- One display-group record of the structural scan. -/
def scanDisplayGroupRecord (hdr : Header) : M Unit := do
  let _ ← seekString
  let _ ← seekString
  let _ ← seekBin 1
  let len ← readU32
  repeatM len (do
    let tag ← readU8
    scanDisplayElement hdr tag)

/-- The rigid-shape check in the rigid scan. -/
def checkRigidShape (tag : Nat) : M Unit :=
  if tag > 2 then throwM (.invalidData "rigid shape") else pure ()

/-- The rigid simulation-method check in the rigid scan. -/
def checkRigidMethod (tag : Nat) : M Unit :=
  if tag > 2 then throwM (.invalidData "rigid method") else pure ()

/-- One rigid-body record of the structural scan. -/
def scanRigidRecord (hdr : Header) : M Unit := do
  let _ ← seekString
  let _ ← seekString
  let _ ← seekBin (hdr.bone_index_size + 1 + 2)
  let shape ← readU8
  checkRigidShape shape
  let _ ← seekBin (12 + 12 + 12 + 4 + 4 + 4 + 4 + 4)
  let method ← readU8
  checkRigidMethod method

/-- The joint-type check in the joint scan (only type 0 is accepted). -/
def checkJointType (tag : Nat) : M Unit :=
  if tag ≠ 0 then throwM (.invalidData "joint type") else pure ()

/-- One joint record of the structural scan. -/
def scanJointRecord (hdr : Header) : M Unit := do
  let _ ← seekString
  let _ ← seekString
  let ty ← readU8
  checkJointType ty
  let _ ← seekBin (hdr.rigid_index_size * 2 + 12 * 2 + 12 * 4 + 12 * 2)
  pure ()

/-- The common shape of every counted section in `Indices::new`: record the
section's start offset, read the 4-byte record count, scan that many
records, and return the start offset. -/
def scanSection (recordScan : M Unit) : M Nat := do
  let first ← position
  let len ← readU32
  repeatM len recordScan
  pure first

/-- The 13 absolute offsets collected by the structural scan. -/
structure Indices where
  name : Nat
  name_en : Nat
  comment : Nat
  comment_en : Nat
  vertices : Nat
  faces : Nat
  textures : Nat
  materials : Nat
  bones : Nat
  morphs : Nat
  display_groups : Nat
  rigids : Nat
  joints : Nat
deriving DecidableEq, Repr

/-- Models `Indices::new`: the single forward structural scan over the whole file
body (everything after the 17 header bytes). -/
def scanIndices (hdr : Header) : M Indices := do
  let name ← seekString
  let name_en ← seekString
  let comment ← seekString
  let comment_en ← seekString
  let vertices ← scanSection (scanVertexRecord hdr)
  let faces ← scanFaces hdr
  let textures ← scanSection (do
    let _ ← seekString
    pure ())
  let materials ← scanSection (scanMaterialRecord hdr)
  let bones ← scanSection (scanBoneRecord hdr)
  let morphs ← scanSection (scanMorphRecord hdr)
  let display_groups ← scanSection (scanDisplayGroupRecord hdr)
  let rigids ← scanSection (scanRigidRecord hdr)
  let joints ← scanSection (scanJointRecord hdr)
  pure {
    name, name_en, comment, comment_en, vertices, faces, textures,
    materials, bones, morphs, display_groups, rigids, joints }

/-- The 4-byte magic "PMX " (with trailing space). -/
def pmxMagicBytes : List Nat := [0x50, 0x4D, 0x58, 0x20]

/-- The little-endian bytes of the 32-bit float 2.0 (bit pattern
0x40000000); this is the unique `f32` bit pattern comparing equal to 2.0,
so byte-list equality models the source's float equality test exactly. -/
def version2Bytes : List Nat := [0x00, 0x00, 0x00, 0x40]

/-- The encoding-byte dispatch of the header parse (0 = UTF-16LE,
1 = UTF-8). -/
def readEncoding (e : Nat) : M Encoding :=
  if e = 0 then pure .utf16
  else if e = 1 then pure .utf8
  else throwM (.invalidHeader "encoding")

/-- The per-width check applied to each of the six index-size bytes. -/
def checkIndexSize (s : Nat) : M Unit :=
  if s = 1 ∨ s = 2 ∨ s = 4 then pure ()
  else throwM (.invalidHeader "index size")

/-- The validation of the eight header bytes once they are read: encoding
tag, extended-UV count, and the six index widths, in source order. -/
def headerChecks (e uv s0 s1 s2 s3 s4 s5 : Nat) : M Header := do
  let encoding ← readEncoding e
  if uv > 4 then throwM (.invalidHeader "extended uv")
  else do
    checkIndexSize s0
    checkIndexSize s1
    checkIndexSize s2
    checkIndexSize s3
    checkIndexSize s4
    checkIndexSize s5
    pure {
      encoding, extended_uv := uv,
      vertex_index_size := s0, texture_index_size := s1,
      material_index_size := s2, bone_index_size := s3,
      morph_index_size := s4, rigid_index_size := s5 }

/-- The tail of `Reader::new`'s header parse after magic and version: the
header-length byte must be 8, then the eight header bytes are read (the
source reads them with one `read_exact(8)`; eight single-byte reads fail
with the same I/O error exactly when fewer than eight bytes remain) and
validated. -/
def headerTail : M Header := do
  let dataLen ← readU8
  if dataLen ≠ 8 then throwM (.invalidHeader "data length")
  else do
    let e ← readU8
    let uv ← readU8
    let s0 ← readU8
    let s1 ← readU8
    let s2 ← readU8
    let s3 ← readU8
    let s4 ← readU8
    let s5 ← readU8
    headerChecks e uv s0 s1 s2 s3 s4 s5

/-- The header portion of `Reader::new`: magic, version (compared as the
unique bit pattern of 2.0), then `headerTail`. -/
def headerParse : M Header := do
  let magic ← readExact 4
  if magic ≠ pmxMagicBytes then throwM (.invalidHeader "magic number")
  else do
    let version ← readExact 4
    if version ≠ version2Bytes then throwM .unsupportedVersion
    else headerTail

/-- Models `Reader::new` on an in-memory buffer: parse and validate the header,
then run the structural scan; the result holds everything a `Reader`
retains (the header and the offset table). -/
def readerNew (buf : List Nat) : Except Error (Header × Indices) :=
  ((do
    let header ← headerParse
    let indices ← scanIndices header
    pure (header, indices) : M (Header × Indices)) buf 0).map Prod.fst

/-!
## The decoder side

Section decoders run on a `DataCursor`, whose reads `unwrap()` the
underlying I/O result: a short read, and the decoder's `unreachable!()` and
`assert!` branches, are panics, not recoverable errors.  `D` models this:
`none` is a panic.
-/

/-- Decoder computations (`DataCursor` reads): `none` models a panic
(`unwrap` on a short read, `unreachable!`, or a failed `assert!`). -/
def D (α : Type) : Type := List Nat → Nat → Option (α × Nat)

instance : Monad D where
  pure a := fun _ pos => some (a, pos)
  bind m f := fun buf pos =>
    match m buf pos with
    | some (a, pos') => f a buf pos'
    | none => none

@[simp]
theorem dBind_apply {α β : Type} (m : D α) (f : α → D β) (buf : List Nat) (pos : Nat) :
    (m >>= f) buf pos =
      match m buf pos with
      | some (a, p) => f a buf p
      | none => none := rfl

theorem dBind_ok {α β : Type} {m : D α} {f : α → D β} {buf : List Nat} {pos : Nat}
    {a : α} {p : Nat} (h : m buf pos = some (a, p)) :
    (m >>= f) buf pos = f a buf p := by
  rw [dBind_apply, h]

theorem dBind_none {α β : Type} {m : D α} {f : α → D β} {buf : List Nat} {pos : Nat}
    (h : m buf pos = none) :
    (m >>= f) buf pos = none := by
  rw [dBind_apply, h]

@[simp]
theorem dPure_apply {α : Type} (a : α) (buf : List Nat) (pos : Nat) :
    (pure a : D α) buf pos = some (a, pos) := rfl

@[simp]
theorem dIte_apply {α : Type} (c : Prop) [Decidable c] (m₁ m₂ : D α)
    (buf : List Nat) (pos : Nat) :
    (if c then m₁ else m₂) buf pos = if c then m₁ buf pos else m₂ buf pos := by
  split <;> rfl

/-- A decoder panic (`unreachable!()` / failed `assert!`). -/
def dFail {α : Type} : D α := fun _ _ => none

@[simp]
theorem dFail_apply {α : Type} (buf : List Nat) (pos : Nat) :
    (dFail : D α) buf pos = none := rfl

/-- Models `DataCursor::read_bin` (a short read panics). -/
def dReadExact (n : Nat) : D (List Nat) := fun buf pos =>
  if pos + n ≤ buf.length then some ((buf.drop pos).take n, pos + n)
  else none

@[simp]
theorem dReadExact_apply (n : Nat) (buf : List Nat) (pos : Nat) :
    dReadExact n buf pos =
      if pos + n ≤ buf.length then some ((buf.drop pos).take n, pos + n)
      else none := rfl

/-- Models `DataCursor::read_u8`. -/
def dReadU8 : D Nat := fun buf pos =>
  match buf.get? pos with
  | some b => some (b, pos + 1)
  | none => none

@[simp]
theorem dReadU8_apply (buf : List Nat) (pos : Nat) :
    dReadU8 buf pos =
      match buf.get? pos with
      | some b => some (b, pos + 1)
      | none => none := rfl

theorem dReadU8_ok {buf : List Nat} {pos b : Nat} (h : buf.get? pos = some b) :
    dReadU8 buf pos = some (b, pos + 1) := by
  rw [dReadU8_apply, h]

/-- Models `DataCursor::read_u16` (little-endian). -/
def dReadU16 : D Nat := do
  let b0 ← dReadU8
  let b1 ← dReadU8
  pure (b0 + 256 * b1)

/-- Models `DataCursor::read_u32` (little-endian). -/
def dReadU32 : D Nat := do
  let b0 ← dReadU8
  let b1 ← dReadU8
  let b2 ← dReadU8
  let b3 ← dReadU8
  pure (b0 + 256 * b1 + 65536 * b2 + 16777216 * b3)

/-- Two's-complement reading of an unsigned `bits`-bit value. -/
def toSigned (u : Nat) (bits : Nat) : Int :=
  if u < 2 ^ (bits - 1) then (u : Int) else (u : Int) - 2 ^ bits

/-- Models `DataCursor::read_i8`. -/
def dReadI8 : D Int := do
  let u ← dReadU8
  pure (toSigned u 8)

/-- Models `DataCursor::read_i16`. -/
def dReadI16 : D Int := do
  let u ← dReadU16
  pure (toSigned u 16)

/-- Models `DataCursor::read_i32`. -/
def dReadI32 : D Int := do
  let u ← dReadU32
  pure (toSigned u 32)

/-- Models `DataCursor::read_f32`: a 32-bit float field, kept as its little-endian
bit pattern (the reader never computes with float values). -/
def dReadF32 : D Nat := dReadU32

/-- Models `DataCursor::read_vec2`: two raw 32-bit float patterns. -/
def dReadVec2 : D (List Nat) := do
  let a ← dReadF32
  let b ← dReadF32
  pure [a, b]

/-- Models `DataCursor::read_vec3`. -/
def dReadVec3 : D (List Nat) := do
  let a ← dReadF32
  let b ← dReadF32
  let c ← dReadF32
  pure [a, b, c]

/-- Models `DataCursor::read_vec4`. -/
def dReadVec4 : D (List Nat) := do
  let a ← dReadF32
  let b ← dReadF32
  let c ← dReadF32
  let d ← dReadF32
  pure [a, b, c, d]

/-!
### String decoding

`read_string` decodes the payload with `String::from_utf16_lossy` (over
`len / 2` little-endian code units) or `String::from_utf8_lossy`.  Strings
are modelled as lists of Unicode scalar values; the two lossy library
decoders are modelled byte-for-byte (replacement character U+FFFD for each
maximal invalid subpart / unpaired surrogate).
-/

/-- U+FFFD. -/
def replacementChar : Nat := 0xFFFD

/-- Reinterpreting a byte buffer as `len / 2` little-endian 16-bit code
units (`from_raw_parts(ptr as *const u16, len / 2)`): a trailing odd byte
is dropped. -/
def utf16Units : List Nat → List Nat
  | b0 :: b1 :: rest => (b0 + 256 * b1) :: utf16Units rest
  | _ => []

/-- Models `String::from_utf16_lossy`: surrogate pairs combine, every unpaired
surrogate unit becomes U+FFFD. -/
def decodeUtf16Lossy : List Nat → List Nat
  | [] => []
  | u :: rest =>
    if u < 0xD800 ∨ 0xE000 ≤ u then u :: decodeUtf16Lossy rest
    else if u < 0xDC00 then
      match rest with
      | u2 :: rest2 =>
        if 0xDC00 ≤ u2 ∧ u2 < 0xE000 then
          (0x10000 + (u - 0xD800) * 0x400 + (u2 - 0xDC00)) :: decodeUtf16Lossy rest2
        else replacementChar :: decodeUtf16Lossy (u2 :: rest2)
      | [] => [replacementChar]
    else replacementChar :: decodeUtf16Lossy rest
termination_by l => l.length
decreasing_by all_goals (simp_all [List.length_cons] <;> omega)

/-- A UTF-8 continuation byte. -/
def isCont (b : Nat) : Prop := 0x80 ≤ b ∧ b < 0xC0

instance (b : Nat) : Decidable (isCont b) := by
  unfold isCont
  infer_instance

/-- Models `String::from_utf8_lossy`: well-formed sequences decode, each maximal
invalid subpart becomes one U+FFFD (WHATWG \x7bU+FFFD\x7d substitution, as the
standard library implements it). -/
def decodeUtf8Lossy : List Nat → List Nat
  | [] => []
  | b :: rest =>
    if b < 0x80 then b :: decodeUtf8Lossy rest
    else if b < 0xC2 then replacementChar :: decodeUtf8Lossy rest
    else if b < 0xE0 then
      match rest with
      | b1 :: r1 =>
        if isCont b1 then ((b - 0xC0) * 64 + (b1 - 0x80)) :: decodeUtf8Lossy r1
        else replacementChar :: decodeUtf8Lossy (b1 :: r1)
      | [] => [replacementChar]
    else if b < 0xF0 then
      match rest with
      | b1 :: r1 =>
        if (if b = 0xE0 then 0xA0 ≤ b1 ∧ b1 < 0xC0
            else if b = 0xED then 0x80 ≤ b1 ∧ b1 < 0xA0
            else isCont b1) then
          match r1 with
          | b2 :: r2 =>
            if isCont b2 then
              ((b - 0xE0) * 4096 + (b1 - 0x80) * 64 + (b2 - 0x80)) :: decodeUtf8Lossy r2
            else replacementChar :: decodeUtf8Lossy (b2 :: r2)
          | [] => [replacementChar]
        else replacementChar :: decodeUtf8Lossy (b1 :: r1)
      | [] => [replacementChar]
    else if b < 0xF5 then
      match rest with
      | b1 :: r1 =>
        if (if b = 0xF0 then 0x90 ≤ b1 ∧ b1 < 0xC0
            else if b = 0xF4 then 0x80 ≤ b1 ∧ b1 < 0x90
            else isCont b1) then
          match r1 with
          | b2 :: r2 =>
            if isCont b2 then
              match r2 with
              | b3 :: r3 =>
                if isCont b3 then
                  ((b - 0xF0) * 262144 + (b1 - 0x80) * 4096 + (b2 - 0x80) * 64 + (b3 - 0x80))
                    :: decodeUtf8Lossy r3
                else replacementChar :: decodeUtf8Lossy (b3 :: r3)
              | [] => [replacementChar]
            else replacementChar :: decodeUtf8Lossy (b2 :: r2)
          | [] => [replacementChar]
        else replacementChar :: decodeUtf8Lossy (b1 :: r1)
      | [] => [replacementChar]
    else replacementChar :: decodeUtf8Lossy rest
termination_by l => l.length
decreasing_by all_goals (simp_all [List.length_cons] <;> omega)

/-- The encoding-directed payload decode used by `read_string`. -/
def strDecode (enc : Encoding) (bytes : List Nat) : List Nat :=
  match enc with
  | .utf16 => decodeUtf16Lossy (utf16Units bytes)
  | .utf8 => decodeUtf8Lossy bytes

/-- Models `DataCursor::read_string`: a 4-byte length, then (unless the length is
zero) that many payload bytes decoded per the header's encoding. -/
def dReadString (hdr : Header) : D (List Nat) := do
  let len ← dReadU32
  if len = 0 then pure []
  else do
    let bytes ← dReadExact len
    pure (strDecode hdr.encoding bytes)

/-- Models `DataCursor::read_signed_index`: widths 1, 2, 4 read a two's-complement
value of that width; a negative value decodes to `none` ("absent"), a
non-negative one to its magnitude.  Any other width is `unreachable!()`. -/
def dReadSignedIndex (size : Nat) : D (Option Nat) :=
  if size = 1 then do
    let v ← dReadI8
    pure (if 0 ≤ v then some v.toNat else none)
  else if size = 2 then do
    let v ← dReadI16
    pure (if 0 ≤ v then some v.toNat else none)
  else if size = 4 then do
    let v ← dReadI32
    pure (if 0 ≤ v then some v.toNat else none)
  else dFail

/-- Models `DataCursor::read_vertex_index`: the vertex-specific unsigned scheme
(u8 / u16 for widths 1 and 2; width 4 reads an i32 and casts it to `usize`,
i.e. wraps two's-complement into 64 bits). -/
def dReadVertexIndex (hdr : Header) : D Nat :=
  if hdr.vertex_index_size = 1 then dReadU8
  else if hdr.vertex_index_size = 2 then dReadU16
  else if hdr.vertex_index_size = 4 then do
    let v ← dReadI32
    pure ((v.emod (2 ^ 64)).toNat)
  else dFail

/-- Models `DataCursor::read_texture_index`. -/
def dReadTextureIndex (hdr : Header) : D (Option Nat) :=
  dReadSignedIndex hdr.texture_index_size

/-- Models `DataCursor::read_material_index`. -/
def dReadMaterialIndex (hdr : Header) : D (Option Nat) :=
  dReadSignedIndex hdr.material_index_size

/-- Models `DataCursor::read_bone_index`. -/
def dReadBoneIndex (hdr : Header) : D (Option Nat) :=
  dReadSignedIndex hdr.bone_index_size

/-- Models `DataCursor::read_morph_index`. -/
def dReadMorphIndex (hdr : Header) : D (Option Nat) :=
  dReadSignedIndex hdr.morph_index_size

/-- Models `DataCursor::read_rigid_index`. -/
def dReadRigidIndex (hdr : Header) : D (Option Nat) :=
  dReadSignedIndex hdr.rigid_index_size

/-- Models a decoder collect loop, Rust (0..n).map(...).collect(). -/
def dReplicate {α : Type} (n : Nat) (m : D α) : D (List α) :=
  match n with
  | 0 => pure []
  | n + 1 => do
    let a ← m
    let rest ← dReplicate n m
    pure (a :: rest)

/-!
### Bone records (the decoder needed by the bone-section claims)
-/

/-- A lower/upper angle-limit pair (float patterns). -/
structure AngleLimit where
  lower : List Nat
  upper : List Nat
deriving DecidableEq, Repr

/-- One IK link. -/
structure IkLink where
  bone : Option Nat
  limit : Option AngleLimit
deriving DecidableEq, Repr

/-- A bone's IK block. -/
structure Ik where
  target_bone : Option Nat
  loop_count : Nat
  angle : Nat
  links : List IkLink
deriving DecidableEq, Repr

/-- A bone's additive-transform substructure. -/
structure Addition where
  rotation : Bool
  translation : Bool
  localFlag : Bool
  bone : Option Nat
  ratioBits : Nat
deriving DecidableEq, Repr

/-- A bone's local rotation poles. -/
structure LocalPole where
  x : List Nat
  z : List Nat
deriving DecidableEq, Repr

/-- A bone's connection target: a coordinate offset or another bone. -/
inductive ConnectTo
  | offset (v : List Nat)
  | bone (b : Option Nat)
deriving DecidableEq, Repr

/-- A decoded bone record. -/
structure Bone where
  name : List Nat
  name_en : List Nat
  pos3 : List Nat
  parent : Option Nat
  deform_hierarchy : Int
  connected_to : ConnectTo
  rotatable : Bool
  translatable : Bool
  visibility : Bool
  operable : Bool
  ik : Option Ik
  addition : Option Addition
  after_physics : Bool
  fixed_pole : Option (List Nat)
  local_pole : Option LocalPole
  external_parent : Option Nat
deriving DecidableEq, Repr

/-- One IK link as decoded by `Reader::bones`: a bone index, the angle-limit
byte, and the limit pair exactly when that byte equals 1. -/
def decodeIkLink (hdr : Header) : D IkLink := do
  let bone ← dReadBoneIndex hdr
  let b ← dReadU8
  if b = 1 then do
    let lower ← dReadVec3
    let upper ← dReadVec3
    pure { bone, limit := some { lower, upper } }
  else pure { bone, limit := none }

/-- One bone record as decoded by `Reader::bones`.  Note the decoder derives
the additive-transform presence from flag bits 0x0080 and 0x0100
(`addition_rotation` / `addition_translation` in the source), not from the
bits 0x0100 and 0x0200 the scanner used. -/
def decodeBone (hdr : Header) : D Bone := do
  let name ← dReadString hdr
  let name_en ← dReadString hdr
  let pos3 ← dReadVec3
  let parent ← dReadBoneIndex hdr
  let deform_hierarchy ← dReadI32
  let flags ← dReadU16
  let rotatable := flags &&& 0x0002 != 0
  let translatable := flags &&& 0x0004 != 0
  let visibility := flags &&& 0x0008 != 0
  let operable := flags &&& 0x0010 != 0
  let ikFlag := flags &&& 0x0020 != 0
  let additionLocal := flags &&& 0x0040 != 0
  let additionRotation := flags &&& 0x0080 != 0
  let additionTranslation := flags &&& 0x0100 != 0
  let fixedPoleFlag := flags &&& 0x0400 != 0
  let localPoleFlag := flags &&& 0x0800 != 0
  let after_physics := flags &&& 0x1000 != 0
  let externalParentFlag := flags &&& 0x2000 != 0
  let connected_to ←
    (if flags &&& 0x0001 = 0 then do
      let v ← dReadVec3
      pure (ConnectTo.offset v)
    else do
      let b ← dReadBoneIndex hdr
      pure (ConnectTo.bone b) : D ConnectTo)
  let addition ←
    (if additionRotation || additionTranslation then do
      let bone ← dReadBoneIndex hdr
      let r ← dReadF32
      pure (some { rotation := additionRotation, translation := additionTranslation,
                   localFlag := additionLocal, bone, ratioBits := r })
    else pure none : D (Option Addition))
  let fixed_pole ←
    (if fixedPoleFlag then do
      let v ← dReadVec3
      pure (some v)
    else pure none : D (Option (List Nat)))
  let local_pole ←
    (if localPoleFlag then do
      let x ← dReadVec3
      let z ← dReadVec3
      pure (some { x, z })
    else pure none : D (Option LocalPole))
  let external_parent ←
    (if externalParentFlag then do
      let v ← dReadI32
      pure (some (v.emod (2 ^ 64)).toNat)
    else pure none : D (Option Nat))
  let ik ←
    (if ikFlag then do
      let target_bone ← dReadBoneIndex hdr
      let loop_count ← dReadU32
      let angle ← dReadF32
      let linkLen ← dReadU32
      let links ← dReplicate linkLen (decodeIkLink hdr)
      pure (some { target_bone, loop_count, angle, links })
    else pure none : D (Option Ik))
  pure { name, name_en, pos3, parent, deform_hierarchy, connected_to,
         rotatable, translatable, visibility, operable, ik, addition,
         after_physics, fixed_pole, local_pole, external_parent }

/-- The up-front length reported by the `Reader::bones` iterator
(`ExactSizeIterator::len`): the 4-byte record count at the bone section's
offset, read before any record is consumed. -/
def bonesLen (buf : List Nat) (off : Nat) : Option Nat :=
  match dReadU32 buf off with
  | some (len, _) => some len
  | none => none

/-- Fully driving the `Reader::bones` iterator: read the count at the bone
section's offset and decode that many records; `none` when any record's
decode panics. -/
def decodeBones (hdr : Header) (buf : List Nat) (off : Nat) : Option (List Bone) :=
  match (do
    let len ← dReadU32
    dReplicate len (decodeBone hdr) : D (List Bone)) buf off with
  | some (bones, _) => some bones
  | none => none

/-!
## Concrete inputs used by the claims
-/

/-- The header of the concrete counterexample files: UTF-8 text, no
extended UV channels, every index one byte wide. -/
def hdrOne : Header :=
  { encoding := .utf8, extended_uv := 0,
    vertex_index_size := 1, texture_index_size := 1, material_index_size := 1,
    bone_index_size := 1, morph_index_size := 1, rigid_index_size := 1 }

/-- A 147-byte file accepted by `Reader::new`: valid header (UTF-8, all
index widths 1), four empty metadata strings, empty vertex / face / texture
/ material sections, then two bone records and empty remaining sections.
Bone 1 has flag word 0x0080 (`addition_rotation` to the decoder, nothing to
the scanner); bone 2 is all zeros except position byte 0 = 0xFF, placed so
that the desynchronized decoder reads it as part of a name length. -/
def cexFile : List Nat :=
  [0x50, 0x4D, 0x58, 0x20, 0x00, 0x00, 0x00, 0x40, 0x08,
   0x01, 0x00, 0x01, 0x01, 0x01, 0x01, 0x01, 0x01] ++
  List.replicate 16 0 ++
  List.replicate 16 0 ++
  [0x02, 0x00, 0x00, 0x00] ++
  (List.replicate 25 0 ++ [0x80, 0x00] ++ List.replicate 12 0) ++
  (List.replicate 8 0 ++ [0xFF] ++ List.replicate 30 0) ++
  List.replicate 16 0

/-- The offsets the structural scan records for `cexFile`. -/
def cexIndices : Indices :=
  { name := 17, name_en := 21, comment := 25, comment_en := 29,
    vertices := 33, faces := 37, textures := 41, materials := 45,
    bones := 49, morphs := 131, display_groups := 135, rigids := 139,
    joints := 143 }

/-- A 39-byte bone record with flag word 0x0200 (translation addition to
the scanner; invisible to the decoder): empty names, zero position, parent
0, zero deform hierarchy, connection offset. -/
def boneRec0200 : List Nat :=
  List.replicate 25 0 ++ [0x00, 0x02] ++ List.replicate 12 0

/-- A 44-byte bone record with flag word 0x0080 (nothing to the scanner;
an additive-transform read to the decoder), padded with the five bytes the
decoder consumes beyond the scanned record. -/
def boneRec0080 : List Nat :=
  List.replicate 25 0 ++ [0x80, 0x00] ++ List.replicate 17 0

/-- A 70-byte file whose single vertex record carries weight-kind byte 4. -/
def badWeightFile : List Nat :=
  [0x50, 0x4D, 0x58, 0x20, 0x00, 0x00, 0x00, 0x40, 0x08,
   0x01, 0x00, 0x01, 0x01, 0x01, 0x01, 0x01, 0x01] ++
  List.replicate 16 0 ++
  [0x01, 0x00, 0x00, 0x00] ++
  List.replicate 32 0 ++
  [0x04]

/-- A 41-byte file whose face section declares one index (1 % 3 ≠ 0). -/
def badFacesFile : List Nat :=
  [0x50, 0x4D, 0x58, 0x20, 0x00, 0x00, 0x00, 0x40, 0x08,
   0x01, 0x00, 0x01, 0x01, 0x01, 0x01, 0x01, 0x01] ++
  List.replicate 16 0 ++
  [0x00, 0x00, 0x00, 0x00] ++
  [0x01, 0x00, 0x00, 0x00]

/-- The same header with UTF-16LE text (used by the string-decoding
claims). -/
def hdrUtf16 : Header :=
  { encoding := .utf16, extended_uv := 0,
    vertex_index_size := 1, texture_index_size := 1, material_index_size := 1,
    bone_index_size := 1, morph_index_size := 1, rigid_index_size := 1 }

/-- The `w`-byte little-endian encoding of `m` (mod 2^(8w)). -/
def natLE : Nat → Nat → List Nat
  | 0, _ => []
  | w + 1, m => m % 256 :: natLE w (m / 256)

/-- The stored form of the signed index value `v` at width `w` bytes:
two's complement, little-endian. -/
def encodeIntLE (w : Nat) (v : Int) : List Nat :=
  natLE w ((v.emod ((2 : Int) ^ (8 * w))).toNat)

/-- A Unicode scalar value (what a Rust `char` holds). -/
def isScalar (c : Nat) : Prop :=
  c < 0x110000 ∧ (c < 0xD800 ∨ 0xE000 ≤ c)

instance (c : Nat) : Decidable (isScalar c) := by
  unfold isScalar
  infer_instance

/-- The UTF-16 code units of a scalar value (one unit in the BMP, a
surrogate pair above it). -/
def encodeUtf16Char (c : Nat) : List Nat :=
  if c < 0x10000 then [c]
  else [0xD800 + (c - 0x10000) / 0x400, 0xDC00 + (c - 0x10000) % 0x400]

/-- The UTF-8 bytes of a scalar value. -/
def encodeUtf8Char (c : Nat) : List Nat :=
  if c < 0x80 then [c]
  else if c < 0x800 then [0xC0 + c / 64, 0x80 + c % 64]
  else if c < 0x10000 then [0xE0 + c / 4096, 0x80 + c / 64 % 64, 0x80 + c % 64]
  else [0xF0 + c / 262144, 0x80 + c / 4096 % 64, 0x80 + c / 64 % 64, 0x80 + c % 64]

/-- The little-endian byte serialization of a list of 16-bit units. -/
def unitsLE (us : List Nat) : List Nat :=
  us.flatMap fun u => [u % 256, u / 256]

/-!
## Infrastructure lemmas

`NoUV m`: the computation can never produce `Error.unsupportedVersion`.
The whole structural scan satisfies it (its only errors are `invalidData`
and the I/O kind), which pins the version check as the unique source of
that error in `Reader::new`.
-/

/-- Holds when `m` never fails with `unsupportedVersion`. -/
def NoUV {α : Type} (m : M α) : Prop :=
  ∀ buf pos, m buf pos ≠ Except.error Error.unsupportedVersion

theorem noUV_pure {α : Type} (a : α) : NoUV (pure a) := by
  intro buf pos h
  simp at h

theorem noUV_bind {α β : Type} {m : M α} {f : α → M β}
    (hm : NoUV m) (hf : ∀ a, NoUV (f a)) : NoUV (m >>= f) := by
  intro buf pos h
  rw [bind_apply] at h
  cases hres : m buf pos with
  | ok v => rw [hres] at h; exact hf v.1 buf v.2 h
  | error e =>
    rw [hres] at h
    simp at h
    exact hm buf pos (by rw [hres, h])

theorem noUV_ite {α : Type} (c : Prop) [Decidable c] {m₁ m₂ : M α}
    (h₁ : NoUV m₁) (h₂ : NoUV m₂) : NoUV (if c then m₁ else m₂) := by
  split
  · exact h₁
  · exact h₂

theorem noUV_throwData {α : Type} (msg : String) :
    NoUV (throwM (Error.invalidData msg) : M α) := by
  intro buf pos h
  simp [throwM] at h

theorem noUV_throwHeader {α : Type} (msg : String) :
    NoUV (throwM (Error.invalidHeader msg) : M α) := by
  intro buf pos h
  simp [throwM] at h

theorem noUV_position : NoUV position := by
  intro buf pos h
  simp [position] at h

theorem noUV_seekBin (len : Nat) : NoUV (seekBin len) := by
  intro buf pos h
  simp [seekBin] at h

theorem noUV_readU8 : NoUV readU8 := by
  intro buf pos h
  rw [readU8_apply] at h
  cases hres : buf.get? pos with
  | none => rw [hres] at h; simp at h
  | some b => rw [hres] at h; simp at h

theorem noUV_readExact (n : Nat) : NoUV (readExact n) := by
  intro buf pos h
  rw [readExact_apply] at h
  split at h <;> simp at h

theorem noUV_readU16 : NoUV readU16 := by
  unfold readU16
  exact noUV_bind noUV_readU8 fun _ =>
    noUV_bind noUV_readU8 fun _ => noUV_pure _

theorem noUV_readU32 : NoUV readU32 := by
  unfold readU32
  exact noUV_bind noUV_readU8 fun _ =>
    noUV_bind noUV_readU8 fun _ =>
      noUV_bind noUV_readU8 fun _ =>
        noUV_bind noUV_readU8 fun _ => noUV_pure _

theorem noUV_seekString : NoUV seekString := by
  unfold seekString
  exact noUV_bind noUV_position fun _ =>
    noUV_bind noUV_readU32 fun _ =>
      noUV_bind (noUV_seekBin _) fun _ => noUV_pure _

theorem noUV_repeatM {body : M Unit} (h : NoUV body) (n : Nat) : NoUV (repeatM n body) := by
  induction n with
  | zero => exact noUV_pure _
  | succ n ih =>
    unfold repeatM
    exact noUV_bind h fun _ => ih

theorem noUV_scanWeight (hdr : Header) (tag : Nat) : NoUV (scanWeight hdr tag) := by
  unfold scanWeight
  exact noUV_ite _ (noUV_bind (noUV_seekBin _) fun _ => noUV_pure _)
    (noUV_ite _ (noUV_bind (noUV_seekBin _) fun _ => noUV_pure _)
      (noUV_ite _ (noUV_bind (noUV_seekBin _) fun _ => noUV_pure _)
        (noUV_ite _ (noUV_bind (noUV_seekBin _) fun _ => noUV_pure _)
          (noUV_throwData _))))

theorem noUV_scanVertexRecord (hdr : Header) : NoUV (scanVertexRecord hdr) := by
  unfold scanVertexRecord
  exact noUV_bind (noUV_seekBin _) fun _ =>
    noUV_bind (noUV_seekBin _) fun _ =>
      noUV_bind (noUV_seekBin _) fun _ =>
        noUV_bind (noUV_seekBin _) fun _ =>
          noUV_bind noUV_readU8 fun tag =>
            noUV_bind (noUV_scanWeight hdr tag) fun _ =>
              noUV_bind (noUV_seekBin _) fun _ => noUV_pure _

theorem noUV_scanFaces (hdr : Header) : NoUV (scanFaces hdr) := by
  unfold scanFaces
  exact noUV_bind noUV_position fun _ =>
    noUV_bind noUV_readU32 fun _ =>
      noUV_ite _ (noUV_throwData _)
        (noUV_bind (noUV_seekBin _) fun _ => noUV_pure _)

theorem noUV_checkSphereMode (tag : Nat) : NoUV (checkSphereMode tag) := by
  unfold checkSphereMode
  exact noUV_ite _ (noUV_throwData _) (noUV_pure _)

theorem noUV_scanToon (hdr : Header) (tag : Nat) : NoUV (scanToon hdr tag) := by
  unfold scanToon
  exact noUV_ite _ (noUV_bind (noUV_seekBin _) fun _ => noUV_pure _)
    (noUV_ite _ (noUV_bind (noUV_seekBin _) fun _ => noUV_pure _)
      (noUV_throwData _))

theorem noUV_scanMaterialRecord (hdr : Header) : NoUV (scanMaterialRecord hdr) := by
  unfold scanMaterialRecord
  exact noUV_bind noUV_seekString fun _ =>
    noUV_bind noUV_seekString fun _ =>
      noUV_bind (noUV_seekBin _) fun _ =>
        noUV_bind noUV_readU8 fun sm =>
          noUV_bind (noUV_checkSphereMode sm) fun _ =>
            noUV_bind noUV_readU8 fun t =>
              noUV_bind (noUV_scanToon hdr t) fun _ =>
                noUV_bind noUV_seekString fun _ =>
                  noUV_bind (noUV_seekBin _) fun _ => noUV_pure _

theorem noUV_scanIkLink (hdr : Header) : NoUV (scanIkLink hdr) := by
  unfold scanIkLink
  exact noUV_bind (noUV_seekBin _) fun _ =>
    noUV_bind noUV_readU8 fun a =>
      noUV_ite _ (noUV_bind (noUV_seekBin _) fun _ => noUV_pure _) (noUV_pure _)

theorem noUV_scanBoneConnect (hdr : Header) (flags : Nat) : NoUV (scanBoneConnect hdr flags) := by
  unfold scanBoneConnect
  exact noUV_ite _ (noUV_bind (noUV_seekBin _) fun _ => noUV_pure _)
    (noUV_bind (noUV_seekBin _) fun _ => noUV_pure _)

theorem noUV_scanBoneAddition (hdr : Header) (flags : Nat) : NoUV (scanBoneAddition hdr flags) := by
  unfold scanBoneAddition
  exact noUV_ite _ (noUV_bind (noUV_seekBin _) fun _ => noUV_pure _) (noUV_pure _)

theorem noUV_scanBoneFixedPole (flags : Nat) : NoUV (scanBoneFixedPole flags) := by
  unfold scanBoneFixedPole
  exact noUV_ite _ (noUV_bind (noUV_seekBin _) fun _ => noUV_pure _) (noUV_pure _)

theorem noUV_scanBoneLocalPole (flags : Nat) : NoUV (scanBoneLocalPole flags) := by
  unfold scanBoneLocalPole
  exact noUV_ite _ (noUV_bind (noUV_seekBin _) fun _ => noUV_pure _) (noUV_pure _)

theorem noUV_scanBoneExternalParent (flags : Nat) : NoUV (scanBoneExternalParent flags) := by
  unfold scanBoneExternalParent
  exact noUV_ite _ (noUV_bind (noUV_seekBin _) fun _ => noUV_pure _) (noUV_pure _)

theorem noUV_scanBoneIk (hdr : Header) (flags : Nat) : NoUV (scanBoneIk hdr flags) := by
  unfold scanBoneIk
  exact noUV_ite _
    (noUV_bind (noUV_seekBin _) fun _ =>
      noUV_bind noUV_readU32 fun link =>
        noUV_repeatM (noUV_scanIkLink hdr) link)
    (noUV_pure _)

theorem noUV_scanBoneRecord (hdr : Header) : NoUV (scanBoneRecord hdr) := by
  unfold scanBoneRecord
  exact noUV_bind noUV_seekString fun _ =>
    noUV_bind noUV_seekString fun _ =>
      noUV_bind (noUV_seekBin _) fun _ =>
        noUV_bind noUV_readU16 fun flags =>
          noUV_bind (noUV_scanBoneConnect hdr flags) fun _ =>
            noUV_bind (noUV_scanBoneAddition hdr flags) fun _ =>
              noUV_bind (noUV_scanBoneFixedPole flags) fun _ =>
                noUV_bind (noUV_scanBoneLocalPole flags) fun _ =>
                  noUV_bind (noUV_scanBoneExternalParent flags) fun _ =>
                    noUV_scanBoneIk hdr flags

theorem noUV_checkPanel (p : Nat) : NoUV (checkPanel p) := by
  unfold checkPanel
  exact noUV_ite _ (noUV_throwData _) (noUV_pure _)

theorem noUV_scanMorphMaterialEntry (hdr : Header) : NoUV (scanMorphMaterialEntry hdr) := by
  unfold scanMorphMaterialEntry
  exact noUV_bind (noUV_seekBin _) fun _ =>
    noUV_bind noUV_readU8 fun op =>
      noUV_ite _ (noUV_throwData _)
        (noUV_bind (noUV_seekBin _) fun _ => noUV_pure _)

theorem noUV_scanMorphKind (hdr : Header) (ty len : Nat) : NoUV (scanMorphKind hdr ty len) := by
  unfold scanMorphKind
  exact noUV_ite _ (noUV_repeatM (noUV_bind (noUV_seekBin _) fun _ => noUV_pure _) len)
    (noUV_ite _ (noUV_repeatM (noUV_bind (noUV_seekBin _) fun _ => noUV_pure _) len)
      (noUV_ite _ (noUV_repeatM (noUV_bind (noUV_seekBin _) fun _ => noUV_pure _) len)
        (noUV_ite _ (noUV_repeatM (noUV_bind (noUV_seekBin _) fun _ => noUV_pure _) len)
          (noUV_ite _ (noUV_repeatM (noUV_scanMorphMaterialEntry hdr) len)
            (noUV_throwData _)))))

theorem noUV_scanMorphRecord (hdr : Header) : NoUV (scanMorphRecord hdr) := by
  unfold scanMorphRecord
  exact noUV_bind noUV_seekString fun _ =>
    noUV_bind noUV_seekString fun _ =>
      noUV_bind noUV_readU8 fun panel =>
        noUV_bind (noUV_checkPanel panel) fun _ =>
          noUV_bind noUV_readU8 fun ty =>
            noUV_bind noUV_readU32 fun len =>
              noUV_scanMorphKind hdr ty len

theorem noUV_scanDisplayElement (hdr : Header) (tag : Nat) : NoUV (scanDisplayElement hdr tag) := by
  unfold scanDisplayElement
  exact noUV_ite _ (noUV_bind (noUV_seekBin _) fun _ => noUV_pure _)
    (noUV_ite _ (noUV_bind (noUV_seekBin _) fun _ => noUV_pure _)
      (noUV_throwData _))

theorem noUV_scanDisplayGroupRecord (hdr : Header) : NoUV (scanDisplayGroupRecord hdr) := by
  unfold scanDisplayGroupRecord
  exact noUV_bind noUV_seekString fun _ =>
    noUV_bind noUV_seekString fun _ =>
      noUV_bind (noUV_seekBin _) fun _ =>
        noUV_bind noUV_readU32 fun len =>
          noUV_repeatM
            (noUV_bind noUV_readU8 fun tag => noUV_scanDisplayElement hdr tag) len

theorem noUV_checkRigidShape (tag : Nat) : NoUV (checkRigidShape tag) := by
  unfold checkRigidShape
  exact noUV_ite _ (noUV_throwData _) (noUV_pure _)

theorem noUV_checkRigidMethod (tag : Nat) : NoUV (checkRigidMethod tag) := by
  unfold checkRigidMethod
  exact noUV_ite _ (noUV_throwData _) (noUV_pure _)

theorem noUV_scanRigidRecord (hdr : Header) : NoUV (scanRigidRecord hdr) := by
  unfold scanRigidRecord
  exact noUV_bind noUV_seekString fun _ =>
    noUV_bind noUV_seekString fun _ =>
      noUV_bind (noUV_seekBin _) fun _ =>
        noUV_bind noUV_readU8 fun shape =>
          noUV_bind (noUV_checkRigidShape shape) fun _ =>
            noUV_bind (noUV_seekBin _) fun _ =>
              noUV_bind noUV_readU8 fun method =>
                noUV_checkRigidMethod method

theorem noUV_checkJointType (tag : Nat) : NoUV (checkJointType tag) := by
  unfold checkJointType
  exact noUV_ite _ (noUV_throwData _) (noUV_pure _)

theorem noUV_scanJointRecord (hdr : Header) : NoUV (scanJointRecord hdr) := by
  unfold scanJointRecord
  exact noUV_bind noUV_seekString fun _ =>
    noUV_bind noUV_seekString fun _ =>
      noUV_bind noUV_readU8 fun ty =>
        noUV_bind (noUV_checkJointType ty) fun _ =>
          noUV_bind (noUV_seekBin _) fun _ => noUV_pure _

theorem noUV_scanSection {recordScan : M Unit} (h : NoUV recordScan) :
    NoUV (scanSection recordScan) := by
  unfold scanSection
  exact noUV_bind noUV_position fun first =>
    noUV_bind noUV_readU32 fun len =>
      noUV_bind (noUV_repeatM h len) fun _ => noUV_pure _

theorem noUV_scanIndices (hdr : Header) : NoUV (scanIndices hdr) := by
  unfold scanIndices
  exact noUV_bind noUV_seekString fun _ =>
    noUV_bind noUV_seekString fun _ =>
      noUV_bind noUV_seekString fun _ =>
        noUV_bind noUV_seekString fun _ =>
          noUV_bind (noUV_scanSection (noUV_scanVertexRecord hdr)) fun _ =>
            noUV_bind (noUV_scanFaces hdr) fun _ =>
              noUV_bind
                (noUV_scanSection (noUV_bind noUV_seekString fun _ => noUV_pure _)) fun _ =>
                noUV_bind (noUV_scanSection (noUV_scanMaterialRecord hdr)) fun _ =>
                  noUV_bind (noUV_scanSection (noUV_scanBoneRecord hdr)) fun _ =>
                    noUV_bind (noUV_scanSection (noUV_scanMorphRecord hdr)) fun _ =>
                      noUV_bind (noUV_scanSection (noUV_scanDisplayGroupRecord hdr)) fun _ =>
                        noUV_bind (noUV_scanSection (noUV_scanRigidRecord hdr)) fun _ =>
                          noUV_bind (noUV_scanSection (noUV_scanJointRecord hdr)) fun _ =>
                            noUV_pure _

theorem noUV_readEncoding (e : Nat) : NoUV (readEncoding e) := by
  unfold readEncoding
  exact noUV_ite _ (noUV_pure _) (noUV_ite _ (noUV_pure _) (noUV_throwHeader _))

theorem noUV_checkIndexSize (s : Nat) : NoUV (checkIndexSize s) := by
  unfold checkIndexSize
  exact noUV_ite _ (noUV_pure _) (noUV_throwHeader _)

theorem noUV_headerChecks (e uv s0 s1 s2 s3 s4 s5 : Nat) :
    NoUV (headerChecks e uv s0 s1 s2 s3 s4 s5) := by
  unfold headerChecks
  exact noUV_bind (noUV_readEncoding e) fun enc =>
    noUV_ite _ (noUV_throwHeader _)
      (noUV_bind (noUV_checkIndexSize _) fun _ =>
        noUV_bind (noUV_checkIndexSize _) fun _ =>
          noUV_bind (noUV_checkIndexSize _) fun _ =>
            noUV_bind (noUV_checkIndexSize _) fun _ =>
              noUV_bind (noUV_checkIndexSize _) fun _ =>
                noUV_bind (noUV_checkIndexSize _) fun _ => noUV_pure _)

theorem noUV_headerTail : NoUV headerTail := by
  unfold headerTail
  exact noUV_bind noUV_readU8 fun dataLen =>
    noUV_ite _ (noUV_throwHeader _)
      (noUV_bind noUV_readU8 fun e =>
        noUV_bind noUV_readU8 fun uv =>
          noUV_bind noUV_readU8 fun s0 =>
            noUV_bind noUV_readU8 fun s1 =>
              noUV_bind noUV_readU8 fun s2 =>
                noUV_bind noUV_readU8 fun s3 =>
                  noUV_bind noUV_readU8 fun s4 =>
                    noUV_bind noUV_readU8 fun s5 =>
                      noUV_headerChecks e uv s0 s1 s2 s3 s4 s5)

/-!
### Evaluating `Reader::new`'s header phase symbolically
-/

/-- A position strictly inside the buffer holds some byte. -/
theorem get?_lt_exists {buf : List Nat} {p : Nat} (h : p < buf.length) :
    ∃ b, buf.get? p = some b := by
  cases hres : buf.get? p with
  | none =>
    rw [List.get?_eq_none] at hres
    omega
  | some b => exact ⟨b, rfl⟩

theorem headerParse_bad_magic {buf : List Nat} (h4 : 4 ≤ buf.length)
    (hm : buf.take 4 ≠ pmxMagicBytes) :
    headerParse buf 0 = .error (.invalidHeader "magic number") := by
  unfold headerParse
  have h4' : 0 + 4 ≤ buf.length := by omega
  simp [h4', hm]

theorem headerParse_bad_version {buf : List Nat} (h8 : 8 ≤ buf.length)
    (hm : buf.take 4 = pmxMagicBytes) (hv : (buf.drop 4).take 4 ≠ version2Bytes) :
    headerParse buf 0 = .error .unsupportedVersion := by
  unfold headerParse
  have h4' : 0 + 4 ≤ buf.length := by omega
  have h8' : 4 + 4 ≤ buf.length := by omega
  simp [h4', h8', hm, hv]

theorem headerParse_to_tail {buf : List Nat} (h8 : 8 ≤ buf.length)
    (hm : buf.take 4 = pmxMagicBytes) (hv : (buf.drop 4).take 4 = version2Bytes) :
    headerParse buf 0 = headerTail buf 8 := by
  unfold headerParse
  have h4' : 0 + 4 ≤ buf.length := by omega
  have h8' : 4 + 4 ≤ buf.length := by omega
  simp [h4', h8', hm, hv]

theorem readerNew_of_headerParse_error {buf : List Nat} {e : Error}
    (h : headerParse buf 0 = .error e) : readerNew buf = .error e := by
  unfold readerNew
  rw [bind_apply, h]
  rfl

theorem readerNew_of_headerParse_ok {buf : List Nat} {hd : Header} {p : Nat}
    (h : headerParse buf 0 = .ok (hd, p)) :
    readerNew buf =
      (((scanIndices hd >>= fun i => pure (hd, i)) : M (Header × Indices)) buf p).map
        Prod.fst := by
  unfold readerNew
  rw [bind_apply, h]

theorem headerTail_run {buf : List Nat} {d e uv s0 s1 s2 s3 s4 s5 : Nat}
    (h8 : buf.get? 8 = some d) (h9 : buf.get? 9 = some e)
    (h10 : buf.get? 10 = some uv) (h11 : buf.get? 11 = some s0)
    (h12 : buf.get? 12 = some s1) (h13 : buf.get? 13 = some s2)
    (h14 : buf.get? 14 = some s3) (h15 : buf.get? 15 = some s4)
    (h16 : buf.get? 16 = some s5) :
    headerTail buf 8 =
      if d = 8 then headerChecks e uv s0 s1 s2 s3 s4 s5 buf 17
      else .error (.invalidHeader "data length") := by
  unfold headerTail
  rw [bind_ok (readU8_ok h8)]
  rw [ite_apply]
  by_cases hd : d = 8
  case neg =>
    rw [if_pos hd, if_neg hd]
    rfl
  rw [if_neg (by omega : ¬d ≠ 8), if_pos hd]
  rw [bind_ok (readU8_ok (by exact h9 : buf.get? (8 + 1) = some e))]
  rw [bind_ok (readU8_ok (by exact h10 : buf.get? (8 + 1 + 1) = some uv))]
  rw [bind_ok (readU8_ok (by exact h11 : buf.get? (8 + 1 + 1 + 1) = some s0))]
  rw [bind_ok (readU8_ok (by exact h12 : buf.get? (8 + 1 + 1 + 1 + 1) = some s1))]
  rw [bind_ok (readU8_ok (by exact h13 : buf.get? (8 + 1 + 1 + 1 + 1 + 1) = some s2))]
  rw [bind_ok (readU8_ok (by exact h14 : buf.get? (8 + 1 + 1 + 1 + 1 + 1 + 1) = some s3))]
  rw [bind_ok (readU8_ok (by exact h15 : buf.get? (8 + 1 + 1 + 1 + 1 + 1 + 1 + 1) = some s4))]
  rw [bind_ok (readU8_ok (by exact h16 : buf.get? (8 + 1 + 1 + 1 + 1 + 1 + 1 + 1 + 1) = some s5))]

theorem headerChecks_bad_encoding {e uv s0 s1 s2 s3 s4 s5 : Nat}
    (he : 2 ≤ e) (buf : List Nat) (pos : Nat) :
    headerChecks e uv s0 s1 s2 s3 s4 s5 buf pos = .error (.invalidHeader "encoding") := by
  unfold headerChecks readEncoding
  have h0 : e ≠ 0 := by omega
  have h1 : e ≠ 1 := by omega
  simp [h0, h1]

theorem headerChecks_bad_uv {e uv s0 s1 s2 s3 s4 s5 : Nat}
    (he : e ≤ 1) (huv : uv > 4) (buf : List Nat) (pos : Nat) :
    headerChecks e uv s0 s1 s2 s3 s4 s5 buf pos = .error (.invalidHeader "extended uv") := by
  unfold headerChecks readEncoding
  interval_cases e <;> simp [huv]

theorem checkIndexSize_ok {s : Nat} (w : s = 1 ∨ s = 2 ∨ s = 4)
    (buf : List Nat) (pos : Nat) : checkIndexSize s buf pos = .ok ((), pos) := by
  unfold checkIndexSize
  simp [w]

theorem checkIndexSize_bad {s : Nat} (w : ¬(s = 1 ∨ s = 2 ∨ s = 4))
    (buf : List Nat) (pos : Nat) :
    checkIndexSize s buf pos = .error (.invalidHeader "index size") := by
  unfold checkIndexSize
  simp [w]

theorem readEncoding_ok {e : Nat} (he : e ≤ 1) (buf : List Nat) (pos : Nat) :
    readEncoding e buf pos = .ok (if e = 0 then Encoding.utf16 else .utf8, pos) := by
  unfold readEncoding
  interval_cases e <;> simp

theorem headerChecks_bad_index_size {e uv s0 s1 s2 s3 s4 s5 : Nat}
    (he : e ≤ 1) (huv : uv ≤ 4)
    (hbad : ¬((s0 = 1 ∨ s0 = 2 ∨ s0 = 4) ∧ (s1 = 1 ∨ s1 = 2 ∨ s1 = 4) ∧
              (s2 = 1 ∨ s2 = 2 ∨ s2 = 4) ∧ (s3 = 1 ∨ s3 = 2 ∨ s3 = 4) ∧
              (s4 = 1 ∨ s4 = 2 ∨ s4 = 4) ∧ (s5 = 1 ∨ s5 = 2 ∨ s5 = 4)))
    (buf : List Nat) (pos : Nat) :
    headerChecks e uv s0 s1 s2 s3 s4 s5 buf pos = .error (.invalidHeader "index size") := by
  unfold headerChecks
  have huv' : ¬(uv > 4) := by omega
  rw [bind_ok (readEncoding_ok he buf pos)]
  rw [ite_apply, if_neg huv']
  by_cases w0 : s0 = 1 ∨ s0 = 2 ∨ s0 = 4
  case neg => rw [bind_err (checkIndexSize_bad w0 buf pos)]
  rw [bind_ok (checkIndexSize_ok w0 buf pos)]
  by_cases w1 : s1 = 1 ∨ s1 = 2 ∨ s1 = 4
  case neg => rw [bind_err (checkIndexSize_bad w1 buf pos)]
  rw [bind_ok (checkIndexSize_ok w1 buf pos)]
  by_cases w2 : s2 = 1 ∨ s2 = 2 ∨ s2 = 4
  case neg => rw [bind_err (checkIndexSize_bad w2 buf pos)]
  rw [bind_ok (checkIndexSize_ok w2 buf pos)]
  by_cases w3 : s3 = 1 ∨ s3 = 2 ∨ s3 = 4
  case neg => rw [bind_err (checkIndexSize_bad w3 buf pos)]
  rw [bind_ok (checkIndexSize_ok w3 buf pos)]
  by_cases w4 : s4 = 1 ∨ s4 = 2 ∨ s4 = 4
  case neg => rw [bind_err (checkIndexSize_bad w4 buf pos)]
  rw [bind_ok (checkIndexSize_ok w4 buf pos)]
  by_cases w5 : s5 = 1 ∨ s5 = 2 ∨ s5 = 4
  case neg => rw [bind_err (checkIndexSize_bad w5 buf pos)]
  exact absurd ⟨w0, w1, w2, w3, w4, w5⟩ hbad

theorem headerChecks_ok {e uv s0 s1 s2 s3 s4 s5 : Nat}
    (he : e ≤ 1) (huv : uv ≤ 4)
    (w0 : s0 = 1 ∨ s0 = 2 ∨ s0 = 4) (w1 : s1 = 1 ∨ s1 = 2 ∨ s1 = 4)
    (w2 : s2 = 1 ∨ s2 = 2 ∨ s2 = 4) (w3 : s3 = 1 ∨ s3 = 2 ∨ s3 = 4)
    (w4 : s4 = 1 ∨ s4 = 2 ∨ s4 = 4) (w5 : s5 = 1 ∨ s5 = 2 ∨ s5 = 4)
    (buf : List Nat) (pos : Nat) :
    headerChecks e uv s0 s1 s2 s3 s4 s5 buf pos =
      .ok ({ encoding := if e = 0 then .utf16 else .utf8, extended_uv := uv,
             vertex_index_size := s0, texture_index_size := s1,
             material_index_size := s2, bone_index_size := s3,
             morph_index_size := s4, rigid_index_size := s5 }, pos) := by
  unfold headerChecks
  have huv' : ¬(uv > 4) := by omega
  rw [bind_ok (readEncoding_ok he buf pos)]
  rw [ite_apply, if_neg huv']
  rw [bind_ok (checkIndexSize_ok w0 buf pos)]
  rw [bind_ok (checkIndexSize_ok w1 buf pos)]
  rw [bind_ok (checkIndexSize_ok w2 buf pos)]
  rw [bind_ok (checkIndexSize_ok w3 buf pos)]
  rw [bind_ok (checkIndexSize_ok w4 buf pos)]
  rw [bind_ok (checkIndexSize_ok w5 buf pos)]
  rfl

theorem get?_some_lt {buf : List Nat} {p b : Nat} (h : buf.get? p = some b) :
    p < buf.length := by
  by_contra hc
  have hn : buf.get? p = none := List.get?_eq_none.mpr (by omega)
  rw [hn] at h
  exact Option.noConfusion h

theorem headerTail_bad_len {buf : List Nat} {d : Nat}
    (h8 : buf.get? 8 = some d) (hd : d ≠ 8) :
    headerTail buf 8 = .error (.invalidHeader "data length") := by
  unfold headerTail
  rw [bind_ok (readU8_ok h8), ite_apply, if_pos hd]
  rfl

/-- The error `unsupportedVersion` can only come from the version comparison: if
`Reader::new`'s parse fails with it, the magic matched, the version bytes
were present, and they differ from 2.0's pattern. -/
theorem headerParse_uv_inv {buf : List Nat}
    (h : headerParse buf 0 = .error .unsupportedVersion) :
    buf.take 4 = pmxMagicBytes ∧ 8 ≤ buf.length ∧ (buf.drop 4).take 4 ≠ version2Bytes := by
  by_cases h4 : 4 ≤ buf.length
  · by_cases hm : buf.take 4 = pmxMagicBytes
    · by_cases h8 : 8 ≤ buf.length
      · by_cases hv : (buf.drop 4).take 4 = version2Bytes
        · rw [headerParse_to_tail h8 hm hv] at h
          exact absurd h (noUV_headerTail buf 8)
        · exact ⟨hm, h8, hv⟩
      · exfalso
        unfold headerParse at h
        have h4' : 0 + 4 ≤ buf.length := by omega
        have h8' : ¬(4 + 4 ≤ buf.length) := by omega
        simp [h4', h8', hm] at h
    · rw [headerParse_bad_magic h4 hm] at h
      simp at h
  · exfalso
    unfold headerParse at h
    have h4' : ¬(0 + 4 ≤ buf.length) := by omega
    simp [h4'] at h

/-- If `Reader::new` fails with `unsupportedVersion`, the header parse did:
the structural scan cannot produce that error. -/
theorem readerNew_uv_inv {buf : List Nat}
    (h : readerNew buf = .error .unsupportedVersion) :
    headerParse buf 0 = .error .unsupportedVersion := by
  unfold readerNew at h
  cases hp : headerParse buf 0 with
  | error e =>
    rw [bind_err hp] at h
    simp [Except.map] at h
    rw [h]
  | ok v =>
    obtain ⟨hd, p⟩ := v
    rw [bind_ok hp] at h
    exfalso
    have hn := noUV_bind (noUV_scanIndices hd) (fun i => noUV_pure (hd, i)) buf p
    cases hs : ((scanIndices hd >>= fun i => pure (hd, i)) : M (Header × Indices)) buf p with
    | error e' =>
      rw [hs] at h
      simp [Except.map] at h
      exact hn (by rw [hs, h])
    | ok w =>
      rw [hs] at h
      simp [Except.map] at h

/-- C3: `Reader::new` fails with `InvalidHeader` when the 4-byte magic is
not "PMX " (naming the magic), when the header-length byte is not 8, when
the encoding byte is neither 0 nor 1, when the extended-UV count exceeds 4,
or when any of the six index-width bytes is outside \x7b1, 2, 4\x7d; it fails
with `UnsupportedVersion` exactly when the version field's bytes are not
the (unique) bit pattern of the float 2.0; and the magic and version
failures depend only on the first 8 bytes — they are reported for every
possible remainder of the buffer, hence before any section is scanned. -/
theorem readerNew_header_validation :
    (∀ buf : List Nat, 4 ≤ buf.length → buf.take 4 ≠ pmxMagicBytes →
      readerNew buf = .error (.invalidHeader "magic number"))
    ∧ (∀ buf : List Nat, 8 ≤ buf.length → buf.take 4 = pmxMagicBytes →
        (buf.drop 4).take 4 ≠ version2Bytes →
        readerNew buf = .error .unsupportedVersion)
    ∧ (∀ buf : List Nat, readerNew buf = .error .unsupportedVersion →
        buf.take 4 = pmxMagicBytes ∧ 8 ≤ buf.length ∧
        (buf.drop 4).take 4 ≠ version2Bytes)
    ∧ (∀ (buf : List Nat) (d : Nat), buf.take 4 = pmxMagicBytes →
        (buf.drop 4).take 4 = version2Bytes → buf.get? 8 = some d → d ≠ 8 →
        readerNew buf = .error (.invalidHeader "data length"))
    ∧ (∀ (buf : List Nat) (e uv s0 s1 s2 s3 s4 s5 : Nat),
        buf.take 4 = pmxMagicBytes → (buf.drop 4).take 4 = version2Bytes →
        buf.get? 8 = some 8 → buf.get? 9 = some e → buf.get? 10 = some uv →
        buf.get? 11 = some s0 → buf.get? 12 = some s1 → buf.get? 13 = some s2 →
        buf.get? 14 = some s3 → buf.get? 15 = some s4 → buf.get? 16 = some s5 →
        2 ≤ e →
        readerNew buf = .error (.invalidHeader "encoding"))
    ∧ (∀ (buf : List Nat) (e uv s0 s1 s2 s3 s4 s5 : Nat),
        buf.take 4 = pmxMagicBytes → (buf.drop 4).take 4 = version2Bytes →
        buf.get? 8 = some 8 → buf.get? 9 = some e → buf.get? 10 = some uv →
        buf.get? 11 = some s0 → buf.get? 12 = some s1 → buf.get? 13 = some s2 →
        buf.get? 14 = some s3 → buf.get? 15 = some s4 → buf.get? 16 = some s5 →
        e ≤ 1 → 4 < uv →
        readerNew buf = .error (.invalidHeader "extended uv"))
    ∧ (∀ (buf : List Nat) (e uv s0 s1 s2 s3 s4 s5 : Nat),
        buf.take 4 = pmxMagicBytes → (buf.drop 4).take 4 = version2Bytes →
        buf.get? 8 = some 8 → buf.get? 9 = some e → buf.get? 10 = some uv →
        buf.get? 11 = some s0 → buf.get? 12 = some s1 → buf.get? 13 = some s2 →
        buf.get? 14 = some s3 → buf.get? 15 = some s4 → buf.get? 16 = some s5 →
        e ≤ 1 → uv ≤ 4 →
        ¬((s0 = 1 ∨ s0 = 2 ∨ s0 = 4) ∧ (s1 = 1 ∨ s1 = 2 ∨ s1 = 4) ∧
          (s2 = 1 ∨ s2 = 2 ∨ s2 = 4) ∧ (s3 = 1 ∨ s3 = 2 ∨ s3 = 4) ∧
          (s4 = 1 ∨ s4 = 2 ∨ s4 = 4) ∧ (s5 = 1 ∨ s5 = 2 ∨ s5 = 4)) →
        readerNew buf = .error (.invalidHeader "index size")) := by
  refine ⟨?_, ?_, ?_, ?_, ?_, ?_, ?_⟩
  · intro buf h4 hm
    exact readerNew_of_headerParse_error (headerParse_bad_magic h4 hm)
  · intro buf h8 hm hv
    exact readerNew_of_headerParse_error (headerParse_bad_version h8 hm hv)
  · intro buf h
    exact headerParse_uv_inv (readerNew_uv_inv h)
  · intro buf d hm hv h8 hd
    apply readerNew_of_headerParse_error
    rw [headerParse_to_tail (by have := get?_some_lt h8; omega) hm hv]
    exact headerTail_bad_len h8 hd
  · intro buf e uv s0 s1 s2 s3 s4 s5 hm hv h8 h9 h10 h11 h12 h13 h14 h15 h16 he
    apply readerNew_of_headerParse_error
    rw [headerParse_to_tail (by have := get?_some_lt h8; omega) hm hv]
    rw [headerTail_run h8 h9 h10 h11 h12 h13 h14 h15 h16, if_pos rfl]
    exact headerChecks_bad_encoding he buf 17
  · intro buf e uv s0 s1 s2 s3 s4 s5 hm hv h8 h9 h10 h11 h12 h13 h14 h15 h16 he huv
    apply readerNew_of_headerParse_error
    rw [headerParse_to_tail (by have := get?_some_lt h8; omega) hm hv]
    rw [headerTail_run h8 h9 h10 h11 h12 h13 h14 h15 h16, if_pos rfl]
    exact headerChecks_bad_uv he huv buf 17
  · intro buf e uv s0 s1 s2 s3 s4 s5 hm hv h8 h9 h10 h11 h12 h13 h14 h15 h16 he huv hbad
    apply readerNew_of_headerParse_error
    rw [headerParse_to_tail (by have := get?_some_lt h8; omega) hm hv]
    rw [headerTail_run h8 h9 h10 h11 h12 h13 h14 h15 h16, if_pos rfl]
    exact headerChecks_bad_index_size he huv hbad buf 17

/-- Witness for C3: concrete rejected inputs for the magic, version,
header-length, encoding, extended-UV, and index-width checks. -/
theorem readerNew_header_validation_witness :
    readerNew [0x51, 0x4D, 0x58, 0x20] = .error (.invalidHeader "magic number")
    ∧ readerNew [0x50, 0x4D, 0x58, 0x20, 0x00, 0x00, 0x80, 0x3F] =
        .error .unsupportedVersion
    ∧ readerNew [0x50, 0x4D, 0x58, 0x20, 0x00, 0x00, 0x00, 0x40, 0x07] =
        .error (.invalidHeader "data length")
    ∧ readerNew [0x50, 0x4D, 0x58, 0x20, 0x00, 0x00, 0x00, 0x40, 0x08,
                 0x02, 0x00, 0x01, 0x01, 0x01, 0x01, 0x01, 0x01] =
        .error (.invalidHeader "encoding")
    ∧ readerNew [0x50, 0x4D, 0x58, 0x20, 0x00, 0x00, 0x00, 0x40, 0x08,
                 0x00, 0x05, 0x01, 0x01, 0x01, 0x01, 0x01, 0x01] =
        .error (.invalidHeader "extended uv")
    ∧ readerNew [0x50, 0x4D, 0x58, 0x20, 0x00, 0x00, 0x00, 0x40, 0x08,
                 0x00, 0x00, 0x03, 0x01, 0x01, 0x01, 0x01, 0x01] =
        .error (.invalidHeader "index size") := by
  obtain ⟨c1, c2, _, c4, c5, c6, c7⟩ := readerNew_header_validation
  refine ⟨c1 _ (by decide) (by decide), c2 _ (by decide) (by decide) (by decide),
    c4 _ 7 (by decide) (by decide) (by decide) (by decide),
    c5 _ 2 0 1 1 1 1 1 1 (by decide) (by decide) (by decide) (by decide) (by decide)
      (by decide) (by decide) (by decide) (by decide) (by decide) (by decide) (by decide),
    c6 _ 0 5 1 1 1 1 1 1 (by decide) (by decide) (by decide) (by decide) (by decide)
      (by decide) (by decide) (by decide) (by decide) (by decide) (by decide) (by decide)
      (by decide),
    c7 _ 0 0 3 1 1 1 1 1 (by decide) (by decide) (by decide) (by decide) (by decide)
      (by decide) (by decide) (by decide) (by decide) (by decide) (by decide) (by decide)
      (by decide) (by decide)⟩

/-- C1: the scanner and the bone decoder disagree on which flag bits gate
the additive-transform substructure (scanner: 0x0100 | 0x0200; decoder:
0x0080 | 0x0100), so the two passes desynchronize.  On a 39-byte record
with flag word 0x0200 the scanner consumes 44 bytes (it skips the
bone-index-plus-ratio substructure) while the decoder consumes only 39; on
a record with flag word 0x0080 the scanner consumes 39 bytes while the
decoder consumes 44. -/
theorem bones_scan_decode_addition_desync :
    scanBoneRecord hdrOne boneRec0200 0 = .ok ((), 44)
    ∧ (decodeBone hdrOne boneRec0200 0).map Prod.snd = some 39
    ∧ scanBoneRecord hdrOne boneRec0080 0 = .ok ((), 39)
    ∧ (decodeBone hdrOne boneRec0080 0).map Prod.snd = some 44 :=
  ⟨by decide, by decide, by decide, by decide⟩

/-- C2: a successfully constructed reader does not shield the decoders
from structural failure.  `Reader::new` accepts the 147-byte `cexFile`
(producing exactly the offsets `cexIndices`), yet fully driving the bone
accessor panics: the desynchronized decoder reads a garbage 0xFF000000
name length for the second bone and runs off the buffer. -/
theorem readerNew_ok_bones_decode_panics :
    readerNew cexFile = .ok (hdrOne, cexIndices)
    ∧ decodeBones hdrOne cexFile cexIndices.bones = none :=
  ⟨by decide, by decide⟩

/-- C4: every scan-side tag dispatch rejects an out-of-range byte with
`InvalidData` naming the offending field category, a face count not
divisible by 3 is rejected likewise, and two end-to-end runs confirm the
error surfaces from `Reader::new`. -/
theorem scan_tag_validation :
    (∀ (hdr : Header) (b : Nat), 3 < b → ∀ (buf : List Nat) (pos : Nat),
      scanWeight hdr b buf pos = .error (.invalidData "vertex weight type"))
    ∧ (∀ b : Nat, 3 < b → ∀ (buf : List Nat) (pos : Nat),
        checkSphereMode b buf pos = .error (.invalidData "material sphere mode"))
    ∧ (∀ (hdr : Header) (b : Nat), 1 < b → ∀ (buf : List Nat) (pos : Nat),
        scanToon hdr b buf pos = .error (.invalidData "material toon flag"))
    ∧ (∀ (hdr : Header) (b n : Nat), 8 < b → ∀ (buf : List Nat) (pos : Nat),
        scanMorphKind hdr b n buf pos = .error (.invalidData "morph type"))
    ∧ (∀ (hdr : Header) (b : Nat), 1 < b → ∀ (buf : List Nat) (pos : Nat),
        scanDisplayElement hdr b buf pos = .error (.invalidData "display group element"))
    ∧ (∀ b : Nat, 2 < b → ∀ (buf : List Nat) (pos : Nat),
        checkRigidShape b buf pos = .error (.invalidData "rigid shape"))
    ∧ (∀ b : Nat, 2 < b → ∀ (buf : List Nat) (pos : Nat),
        checkRigidMethod b buf pos = .error (.invalidData "rigid method"))
    ∧ (∀ b : Nat, b ≠ 0 → ∀ (buf : List Nat) (pos : Nat),
        checkJointType b buf pos = .error (.invalidData "joint type"))
    ∧ (∀ (hdr : Header) (buf : List Nat) (pos n : Nat),
        readU32 buf pos = .ok (n, pos + 4) → n % 3 ≠ 0 →
        scanFaces hdr buf pos = .error (.invalidData "faces"))
    ∧ readerNew badWeightFile = .error (.invalidData "vertex weight type")
    ∧ readerNew badFacesFile = .error (.invalidData "faces") := by
  refine ⟨?_, ?_, ?_, ?_, ?_, ?_, ?_, ?_, ?_, by decide, by decide⟩
  · intro hdr b hb buf pos
    unfold scanWeight
    have h0 : b ≠ 0 := by omega
    have h1 : b ≠ 1 := by omega
    have h2 : b ≠ 2 := by omega
    have h3 : b ≠ 3 := by omega
    simp [h0, h1, h2, h3]
  · intro b hb buf pos
    unfold checkSphereMode
    simp [hb]
  · intro hdr b hb buf pos
    unfold scanToon
    have h0 : b ≠ 0 := by omega
    have h1 : b ≠ 1 := by omega
    simp [h0, h1]
  · intro hdr b n hb buf pos
    unfold scanMorphKind
    have h0 : b ≠ 0 := by omega
    have h1 : b ≠ 1 := by omega
    have h2 : b ≠ 2 := by omega
    have h37 : ¬(b = 3 ∨ b = 4 ∨ b = 5 ∨ b = 6 ∨ b = 7) := by omega
    have h8 : b ≠ 8 := by omega
    simp [h0, h1, h2, h37, h8]
  · intro hdr b hb buf pos
    unfold scanDisplayElement
    have h0 : b ≠ 0 := by omega
    have h1 : b ≠ 1 := by omega
    simp [h0, h1]
  · intro b hb buf pos
    unfold checkRigidShape
    simp [hb]
  · intro b hb buf pos
    unfold checkRigidMethod
    simp [hb]
  · intro b hb buf pos
    unfold checkJointType
    simp [hb]
  · intro hdr buf pos n hread hmod
    unfold scanFaces
    rw [bind_ok (position_apply buf pos), bind_ok hread, ite_apply, if_pos hmod]
    rfl

/-- Witness for C4: concrete out-of-range tags rejected with the right
category names. -/
theorem scan_tag_validation_witness :
    scanWeight hdrOne 4 [] 0 = .error (.invalidData "vertex weight type")
    ∧ checkSphereMode 4 [] 0 = .error (.invalidData "material sphere mode")
    ∧ scanToon hdrOne 2 [] 0 = .error (.invalidData "material toon flag")
    ∧ scanMorphKind hdrOne 9 0 [] 0 = .error (.invalidData "morph type")
    ∧ scanDisplayElement hdrOne 2 [] 0 = .error (.invalidData "display group element")
    ∧ checkRigidShape 3 [] 0 = .error (.invalidData "rigid shape")
    ∧ checkRigidMethod 3 [] 0 = .error (.invalidData "rigid method")
    ∧ checkJointType 1 [] 0 = .error (.invalidData "joint type")
    ∧ scanFaces hdrOne [0x01, 0x00, 0x00, 0x00] 0 = .error (.invalidData "faces") := by
  obtain ⟨c1, c2, c3, c4, c5, c6, c7, c8, c9, _, _⟩ := scan_tag_validation
  exact ⟨c1 hdrOne 4 (by decide) [] 0, c2 4 (by decide) [] 0, c3 hdrOne 2 (by decide) [] 0,
    c4 hdrOne 9 0 (by decide) [] 0, c5 hdrOne 2 (by decide) [] 0, c6 3 (by decide) [] 0,
    c7 3 (by decide) [] 0, c8 1 (by decide) [] 0,
    c9 hdrOne _ 0 1 (by decide) (by decide)⟩

/-- C5: on the accepted `cexFile`, the bone iterator reports length 2 up
front (the 4-byte count stored at the section's offset 49) without
consuming anything, but driving it to completion panics before yielding
two records, so the produced sequence falls short of the reported
length. -/
theorem bones_len_reported_decode_falls_short :
    readerNew cexFile = .ok (hdrOne, cexIndices)
    ∧ bonesLen cexFile cexIndices.bones = some 2
    ∧ readU32 cexFile cexIndices.bones = .ok (2, 53)
    ∧ decodeBones hdrOne cexFile cexIndices.bones = none :=
  ⟨by decide, by decide, by decide, by decide⟩

/-- C7 counterexample: the morph material-delta entry is not scanned as a
144-byte block.  With a 1-byte material index the scanner advances 114
bytes over the whole entry (index + op byte + the fixed parameter block),
never 144, 145 or 146. -/
theorem morph_material_entry_not_144 :
    scanMorphMaterialEntry hdrOne [0, 0] 0 = .ok ((), 114)
    ∧ 114 ≠ 144 ∧ 114 ≠ 145 ∧ 114 ≠ 146 :=
  ⟨by decide, by decide, by decide, by decide⟩

/-- C7 as amended: the scanner advances over each morph material-delta
entry as the material index, the op byte, and then a fixed 112-byte
parameter block (16+12+4+12+16+4+16+16+16), regardless of anything else in
the buffer. -/
theorem morph_material_entry_fixed_112 :
    ∀ (hdr : Header) (buf : List Nat) (pos op : Nat),
      buf.get? (pos + hdr.material_index_size) = some op → op ≤ 1 →
      scanMorphMaterialEntry hdr buf pos =
        .ok ((), pos + hdr.material_index_size + 1 + 112) := by
  intro hdr buf pos op hop hle
  unfold scanMorphMaterialEntry
  rw [bind_ok (seekBin_apply hdr.material_index_size buf pos)]
  rw [bind_ok (readU8_ok hop)]
  rw [ite_apply, if_neg (by omega : ¬op > 1)]
  rw [bind_ok (seekBin_apply _ buf _)]
  rfl

/-- Witness for C7's amended claim at a concrete entry. -/
theorem morph_material_entry_fixed_112_witness :
    scanMorphMaterialEntry hdrOne [0, 0] 0 = .ok ((), 114) :=
  morph_material_entry_fixed_112 hdrOne [0, 0] 0 0 (by decide) (by decide)

/-!
### Decoder read-success lemmas
-/

theorem dReadU8_lt {buf : List Nat} {pos : Nat} (h : pos < buf.length) :
    ∃ b, dReadU8 buf pos = some (b, pos + 1) := by
  obtain ⟨b, hb⟩ := get?_lt_exists h
  exact ⟨b, dReadU8_ok hb⟩

theorem dReadU16_le {buf : List Nat} {pos : Nat} (h : pos + 2 ≤ buf.length) :
    ∃ v, dReadU16 buf pos = some (v, pos + 2) := by
  obtain ⟨b0, h0⟩ := get?_lt_exists (show pos < buf.length by omega)
  obtain ⟨b1, h1⟩ := get?_lt_exists (show pos + 1 < buf.length by omega)
  refine ⟨b0 + 256 * b1, ?_⟩
  unfold dReadU16
  rw [dBind_ok (dReadU8_ok h0), dBind_ok (dReadU8_ok h1)]
  rfl

theorem dReadU32_le {buf : List Nat} {pos : Nat} (h : pos + 4 ≤ buf.length) :
    ∃ v, dReadU32 buf pos = some (v, pos + 4) := by
  obtain ⟨b0, h0⟩ := get?_lt_exists (show pos < buf.length by omega)
  obtain ⟨b1, h1⟩ := get?_lt_exists (show pos + 1 < buf.length by omega)
  obtain ⟨b2, h2⟩ := get?_lt_exists (show pos + 1 + 1 < buf.length by omega)
  obtain ⟨b3, h3⟩ := get?_lt_exists (show pos + 1 + 1 + 1 < buf.length by omega)
  refine ⟨b0 + 256 * b1 + 65536 * b2 + 16777216 * b3, ?_⟩
  unfold dReadU32
  rw [dBind_ok (dReadU8_ok h0), dBind_ok (dReadU8_ok h1), dBind_ok (dReadU8_ok h2),
    dBind_ok (dReadU8_ok h3)]
  rfl

theorem dReadVec3_le {buf : List Nat} {pos : Nat} (h : pos + 12 ≤ buf.length) :
    ∃ v, dReadVec3 buf pos = some (v, pos + 12) := by
  obtain ⟨a, ha⟩ := dReadU32_le (show pos + 4 ≤ buf.length by omega)
  obtain ⟨b, hb⟩ := dReadU32_le (show pos + 4 + 4 ≤ buf.length by omega)
  obtain ⟨c, hc⟩ := dReadU32_le (show pos + 4 + 4 + 4 ≤ buf.length by omega)
  refine ⟨[a, b, c], ?_⟩
  unfold dReadVec3 dReadF32
  rw [dBind_ok ha, dBind_ok hb, dBind_ok hc]
  rfl

theorem dReadI8_lt {buf : List Nat} {pos : Nat} (h : pos < buf.length) :
    ∃ v, dReadI8 buf pos = some (v, pos + 1) := by
  obtain ⟨b, hb⟩ := dReadU8_lt h
  refine ⟨toSigned b 8, ?_⟩
  unfold dReadI8
  rw [dBind_ok hb]
  rfl

theorem dReadI16_le {buf : List Nat} {pos : Nat} (h : pos + 2 ≤ buf.length) :
    ∃ v, dReadI16 buf pos = some (v, pos + 2) := by
  obtain ⟨b, hb⟩ := dReadU16_le h
  refine ⟨toSigned b 16, ?_⟩
  unfold dReadI16
  rw [dBind_ok hb]
  rfl

theorem dReadI32_le {buf : List Nat} {pos : Nat} (h : pos + 4 ≤ buf.length) :
    ∃ v, dReadI32 buf pos = some (v, pos + 4) := by
  obtain ⟨b, hb⟩ := dReadU32_le h
  refine ⟨toSigned b 32, ?_⟩
  unfold dReadI32
  rw [dBind_ok hb]
  rfl

theorem dReadSignedIndex_le {s : Nat} {buf : List Nat} {pos : Nat}
    (hs : s = 1 ∨ s = 2 ∨ s = 4) (h : pos + s ≤ buf.length) :
    ∃ v, dReadSignedIndex s buf pos = some (v, pos + s) := by
  rcases hs with hs | hs | hs <;> subst hs <;> unfold dReadSignedIndex
  · obtain ⟨v, hv⟩ := dReadI8_lt (show pos < buf.length by omega)
    refine ⟨if 0 ≤ v then some v.toNat else none, ?_⟩
    norm_num
    rw [hv]
  · obtain ⟨v, hv⟩ := dReadI16_le h
    refine ⟨if 0 ≤ v then some v.toNat else none, ?_⟩
    norm_num
    rw [hv]
  · obtain ⟨v, hv⟩ := dReadI32_le h
    refine ⟨if 0 ≤ v then some v.toNat else none, ?_⟩
    norm_num
    rw [hv]

/-- C10: the IK-link angle-limit byte is never validated, and the scanner
and the bone decoder agree on it byte-for-byte: for EVERY byte value `b`
(including 0 and 2-255), both passes consume the bone index, the one tag
byte, and then 24 further bytes exactly when `b = 1`; neither pass raises
any error on any value of `b`, and the decoder materializes an angle limit
exactly when `b = 1`. -/
theorem ik_angle_limit_agreement :
    ∀ (hdr : Header) (buf : List Nat) (pos b : Nat),
      (hdr.bone_index_size = 1 ∨ hdr.bone_index_size = 2 ∨ hdr.bone_index_size = 4) →
      buf.get? (pos + hdr.bone_index_size) = some b →
      pos + hdr.bone_index_size + 1 + (if b = 1 then 24 else 0) ≤ buf.length →
      scanIkLink hdr buf pos =
        .ok ((), pos + hdr.bone_index_size + 1 + (if b = 1 then 24 else 0))
      ∧ ∃ link : IkLink,
          decodeIkLink hdr buf pos =
            some (link, pos + hdr.bone_index_size + 1 + (if b = 1 then 24 else 0))
          ∧ (link.limit.isSome ↔ b = 1) := by
  intro hdr buf pos b hs hb hlen
  constructor
  · unfold scanIkLink
    rw [bind_ok (seekBin_apply hdr.bone_index_size buf pos)]
    rw [bind_ok (readU8_ok hb)]
    rw [ite_apply]
    by_cases hb1 : b = 1
    · subst hb1
      rw [if_pos rfl, if_pos rfl]
      rw [bind_ok (seekBin_apply _ buf _)]
      rfl
    · simp only [if_neg hb1]
      rfl
  · obtain ⟨bi, hbi⟩ := dReadSignedIndex_le hs
      (show pos + hdr.bone_index_size ≤ buf.length by
        have := get?_some_lt hb; omega)
    unfold decodeIkLink dReadBoneIndex
    rw [dBind_ok hbi, dBind_ok (dReadU8_ok hb)]
    rw [dIte_apply]
    by_cases hb1 : b = 1
    · subst hb1
      rw [if_pos rfl] at hlen
      rw [if_pos rfl, if_pos rfl]
      obtain ⟨lo, hlo⟩ := dReadVec3_le
        (show pos + hdr.bone_index_size + 1 + 12 ≤ buf.length by omega)
      obtain ⟨up, hup⟩ := dReadVec3_le
        (show pos + hdr.bone_index_size + 1 + 12 + 12 ≤ buf.length by omega)
      rw [dBind_ok hlo, dBind_ok hup]
      exact ⟨{ bone := bi, limit := some { lower := lo, upper := up } }, rfl, by simp⟩
    · simp only [if_neg hb1]
      exact ⟨{ bone := bi, limit := none }, rfl, by simp [hb1]⟩

/-- Witness for C10 at the non-validated byte value 7: both passes consume
two bytes and no error or angle limit arises. -/
theorem ik_angle_limit_agreement_witness :
    scanIkLink hdrOne [0, 7] 0 = .ok ((), 2)
    ∧ ∃ link : IkLink,
        decodeIkLink hdrOne [0, 7] 0 = some (link, 2)
        ∧ (link.limit.isSome ↔ 7 = 1) :=
  ik_angle_limit_agreement hdrOne [0, 7] 0 7 (by decide) (by decide) (by decide)

/-!
### Index round-trips (C6)
-/

theorem dReadI8_natLE (m : Nat) :
    dReadI8 (natLE 1 m) 0 = some (toSigned (m % 256) 8, 1) := rfl

theorem dReadI16_natLE (m : Nat) :
    dReadI16 (natLE 2 m) 0 =
      some (toSigned (m % 256 + 256 * (m / 256 % 256)) 16, 2) := rfl

theorem dReadI32_natLE (m : Nat) :
    dReadI32 (natLE 4 m) 0 =
      some (toSigned (m % 256 + 256 * (m / 256 % 256) + 65536 * (m / 256 / 256 % 256)
        + 16777216 * (m / 256 / 256 / 256 % 256)) 32, 4) := rfl

theorem dReadU8_natLE (m : Nat) :
    dReadU8 (natLE 1 m) 0 = some (m % 256, 1) := rfl

theorem dReadU16_natLE (m : Nat) :
    dReadU16 (natLE 2 m) 0 = some (m % 256 + 256 * (m / 256 % 256), 2) := rfl

/-- On the interval [-n, n), `emod n` is the two's-complement residue. -/
theorem emod_small_cases (v n : Int) (_hn : 0 < n) (h1 : -n ≤ v) (h2 : v < n) :
    v.emod n = v ∨ v.emod n = v + n := by
  by_cases h : 0 ≤ v
  · left
    exact Int.emod_eq_of_lt h h2
  · right
    have key : (v + n).emod n = v.emod n := by
      have hk := Int.add_mul_emod_self_left (a := v) (b := n) (c := 1)
      rw [mul_one] at hk
      exact hk
    rw [← key]
    exact Int.emod_eq_of_lt (by omega) (by omega)

theorem emod_bounds (v n : Int) (hn : 0 < n) :
    0 ≤ v.emod n ∧ v.emod n < n :=
  ⟨Int.emod_nonneg v (by omega), Int.emod_lt_of_pos v hn⟩

theorem signedIndex_enc1 (v : Int) (h1 : -128 ≤ v) (h2 : v < 128) :
    dReadSignedIndex 1 (encodeIntLE 1 v) 0 =
      some (if 0 ≤ v then some v.toNat else none, 1) := by
  unfold encodeIntLE
  rw [show ((2 : Int) ^ (8 * 1)) = 256 by norm_num]
  obtain ⟨hb0, hblt⟩ := emod_bounds v 256 (by norm_num)
  have hc := emod_small_cases v 256 (by norm_num) (by omega) (by omega)
  set m := (v.emod 256).toNat with hm
  have hmod : m % 256 = m := by omega
  have hI8 : dReadI8 (natLE 1 m) 0 = some (toSigned m 8, 1) := by
    have := dReadI8_natLE m
    rwa [hmod] at this
  have hts : toSigned m 8 = v := by
    unfold toSigned
    norm_num
    rcases hc with hc | hc <;> split <;> omega
  unfold dReadSignedIndex
  norm_num
  rw [hI8, hts]

theorem signedIndex_enc2 (v : Int) (h1 : -32768 ≤ v) (h2 : v < 32768) :
    dReadSignedIndex 2 (encodeIntLE 2 v) 0 =
      some (if 0 ≤ v then some v.toNat else none, 2) := by
  unfold encodeIntLE
  rw [show ((2 : Int) ^ (8 * 2)) = 65536 by norm_num]
  obtain ⟨hb0, hblt⟩ := emod_bounds v 65536 (by norm_num)
  have hc := emod_small_cases v 65536 (by norm_num) (by omega) (by omega)
  set m := (v.emod 65536).toNat with hm
  have hrec : m % 256 + 256 * (m / 256 % 256) = m := by omega
  have hI16 : dReadI16 (natLE 2 m) 0 = some (toSigned m 16, 2) := by
    have := dReadI16_natLE m
    rwa [hrec] at this
  have hts : toSigned m 16 = v := by
    unfold toSigned
    norm_num
    rcases hc with hc | hc <;> split <;> omega
  unfold dReadSignedIndex
  norm_num
  rw [hI16, hts]

theorem signedIndex_enc4 (v : Int) (h1 : -2147483648 ≤ v) (h2 : v < 2147483648) :
    dReadSignedIndex 4 (encodeIntLE 4 v) 0 =
      some (if 0 ≤ v then some v.toNat else none, 4) := by
  unfold encodeIntLE
  rw [show ((2 : Int) ^ (8 * 4)) = 4294967296 by norm_num]
  obtain ⟨hb0, hblt⟩ := emod_bounds v 4294967296 (by norm_num)
  have hc := emod_small_cases v 4294967296 (by norm_num) (by omega) (by omega)
  set m := (v.emod 4294967296).toNat with hm
  have hrec : m % 256 + 256 * (m / 256 % 256) + 65536 * (m / 256 / 256 % 256)
      + 16777216 * (m / 256 / 256 / 256 % 256) = m := by omega
  have hI32 : dReadI32 (natLE 4 m) 0 = some (toSigned m 32, 4) := by
    have := dReadI32_natLE m
    rwa [hrec] at this
  have hts : toSigned m 32 = v := by
    unfold toSigned
    norm_num
    rcases hc with hc | hc <;> split <;> omega
  unfold dReadSignedIndex
  norm_num
  rw [hI32, hts]

theorem vertexIndex_enc1 (hdr : Header) (v : Nat)
    (hw : hdr.vertex_index_size = 1) (hv : v < 256) :
    dReadVertexIndex hdr (natLE 1 v) 0 = some (v, 1) := by
  unfold dReadVertexIndex
  rw [hw]
  norm_num
  have := dReadU8_natLE v
  rwa [Nat.mod_eq_of_lt hv] at this

theorem vertexIndex_enc2 (hdr : Header) (v : Nat)
    (hw : hdr.vertex_index_size = 2) (hv : v < 65536) :
    dReadVertexIndex hdr (natLE 2 v) 0 = some (v, 2) := by
  unfold dReadVertexIndex
  rw [hw]
  norm_num
  have := dReadU16_natLE v
  rwa [show v % 256 + 256 * (v / 256 % 256) = v by omega] at this

theorem vertexIndex_enc4 (hdr : Header) (v : Nat)
    (hw : hdr.vertex_index_size = 4) (hv : v < 2147483648) :
    dReadVertexIndex hdr (natLE 4 v) 0 = some (v, 4) := by
  unfold dReadVertexIndex
  rw [hw]
  norm_num
  have hI32 : dReadI32 (natLE 4 v) 0 = some (toSigned v 32, 4) := by
    have := dReadI32_natLE v
    rwa [show v % 256 + 256 * (v / 256 % 256) + 65536 * (v / 256 / 256 % 256)
      + 16777216 * (v / 256 / 256 / 256 % 256) = v by omega] at this
  have hts : toSigned v 32 = (v : Int) := by
    unfold toSigned
    norm_num
    omega
  rw [hI32, hts]
  have hm : ((v : Int).emod 18446744073709551616) = (v : Int) :=
    Int.emod_eq_of_lt (by omega) (by omega)
  simp [hm]

/-- C6: index decoding round-trips.  For each width in \x7b1, 2, 4\x7d, a
stored negative two's-complement value decodes to `none` ("absent") and a
stored non-negative `v` decodes to `some v`; the texture / material / bone
/ morph / rigid readers are all this same signed decoder applied at their
category's width; vertex indices follow the distinct unsigned convention
(u8 for width 1, u16 for width 2, i32-cast-to-usize for width 4), with
every stored non-negative value decoding to itself. -/
theorem index_decoding_roundtrip :
    (∀ v : Int, -128 ≤ v → v < 128 →
      dReadSignedIndex 1 (encodeIntLE 1 v) 0 =
        some (if 0 ≤ v then some v.toNat else none, 1))
    ∧ (∀ v : Int, -32768 ≤ v → v < 32768 →
        dReadSignedIndex 2 (encodeIntLE 2 v) 0 =
          some (if 0 ≤ v then some v.toNat else none, 2))
    ∧ (∀ v : Int, -2147483648 ≤ v → v < 2147483648 →
        dReadSignedIndex 4 (encodeIntLE 4 v) 0 =
          some (if 0 ≤ v then some v.toNat else none, 4))
    ∧ (∀ hdr : Header, dReadTextureIndex hdr = dReadSignedIndex hdr.texture_index_size)
    ∧ (∀ hdr : Header, dReadMaterialIndex hdr = dReadSignedIndex hdr.material_index_size)
    ∧ (∀ hdr : Header, dReadBoneIndex hdr = dReadSignedIndex hdr.bone_index_size)
    ∧ (∀ hdr : Header, dReadMorphIndex hdr = dReadSignedIndex hdr.morph_index_size)
    ∧ (∀ hdr : Header, dReadRigidIndex hdr = dReadSignedIndex hdr.rigid_index_size)
    ∧ (∀ (hdr : Header) (v : Nat), hdr.vertex_index_size = 1 → v < 256 →
        dReadVertexIndex hdr (natLE 1 v) 0 = some (v, 1))
    ∧ (∀ (hdr : Header) (v : Nat), hdr.vertex_index_size = 2 → v < 65536 →
        dReadVertexIndex hdr (natLE 2 v) 0 = some (v, 2))
    ∧ (∀ (hdr : Header) (v : Nat), hdr.vertex_index_size = 4 → v < 2147483648 →
        dReadVertexIndex hdr (natLE 4 v) 0 = some (v, 4)) :=
  ⟨signedIndex_enc1, signedIndex_enc2, signedIndex_enc4,
   fun _ => rfl, fun _ => rfl, fun _ => rfl, fun _ => rfl, fun _ => rfl,
   vertexIndex_enc1, vertexIndex_enc2, vertexIndex_enc4⟩

/-- Witness for C6: a stored -1 is absent at width 1, a stored 300 is
present at width 2, a stored -5 is absent at width 4, and a stored 250
vertex index reads back as 250. -/
theorem index_decoding_roundtrip_witness :
    dReadSignedIndex 1 (encodeIntLE 1 (-1)) 0 = some (none, 1)
    ∧ dReadSignedIndex 2 (encodeIntLE 2 300) 0 = some (some 300, 2)
    ∧ dReadSignedIndex 4 (encodeIntLE 4 (-5)) 0 = some (none, 4)
    ∧ dReadVertexIndex hdrOne (natLE 1 250) 0 = some (250, 1) := by
  obtain ⟨c1, c2, c3, _, _, _, _, _, v1, _, _⟩ := index_decoding_roundtrip
  refine ⟨?_, ?_, ?_, v1 hdrOne 250 rfl (by norm_num)⟩
  · have := c1 (-1) (by norm_num) (by norm_num)
    simpa using this
  · have := c2 300 (by norm_num) (by norm_num)
    simpa using this
  · have := c3 (-5) (by norm_num) (by norm_num)
    simpa using this

/-!
### String decoding (C8, C9)
-/

/-- A zero length prefix returns the empty string without touching the
payload, under either encoding. -/
theorem dReadString_zero {hdr : Header} {buf : List Nat} {pos : Nat}
    (hlen : dReadU32 buf pos = some (0, pos + 4)) :
    dReadString hdr buf pos = some ([], pos + 4) := by
  unfold dReadString
  rw [dBind_ok hlen, dIte_apply, if_pos rfl]
  rfl

/-- With the payload present, `read_string` always succeeds and returns the
encoding-directed lossy decode of exactly the declared payload bytes,
advancing by the full declared length — for any payload contents. -/
theorem dReadString_run {hdr : Header} {buf : List Nat} {pos len : Nat}
    (hlen : dReadU32 buf pos = some (len, pos + 4)) (hne : len ≠ 0)
    (hfit : pos + 4 + len ≤ buf.length) :
    dReadString hdr buf pos =
      some (strDecode hdr.encoding ((buf.drop (pos + 4)).take len), pos + 4 + len) := by
  unfold dReadString
  rw [dBind_ok hlen, dIte_apply, if_neg hne]
  rw [dBind_ok (show dReadExact len buf (pos + 4) =
    some ((buf.drop (pos + 4)).take len, pos + 4 + len) from by
      rw [dReadExact_apply, if_pos hfit])]
  rfl

theorem utf16Units_length : ∀ l : List Nat, (utf16Units l).length = l.length / 2
  | [] => by simp [utf16Units]
  | [b] => by simp [utf16Units]
  | b0 :: b1 :: rest => by
    rw [show utf16Units (b0 :: b1 :: rest) = (b0 + 256 * b1) :: utf16Units rest from rfl]
    simp [utf16Units_length rest]
    omega

theorem utf16Units_take_even :
    ∀ l : List Nat, l.length % 2 = 1 → utf16Units l = utf16Units (l.take (l.length - 1))
  | [] => by
    intro h
    simp at h
  | [b] => by
    intro h
    simp [utf16Units]
  | b0 :: b1 :: rest => by
    intro h
    have hr : rest.length % 2 = 1 := by
      simp at h
      omega
    have hlen : (b0 :: b1 :: rest).length - 1 = rest.length - 1 + 2 := by
      simp
      omega
    rw [hlen]
    rw [show (b0 :: b1 :: rest).take (rest.length - 1 + 2) =
      b0 :: b1 :: rest.take (rest.length - 1) from rfl]
    rw [show utf16Units (b0 :: b1 :: rest) = (b0 + 256 * b1) :: utf16Units rest from rfl]
    rw [show utf16Units (b0 :: b1 :: rest.take (rest.length - 1)) =
      (b0 + 256 * b1) :: utf16Units (rest.take (rest.length - 1)) from rfl]
    rw [utf16Units_take_even rest hr]

/-- C9: for a UTF-16 string whose declared byte length is odd, the decoder
builds the string from only the first len / 2 little-endian code units —
the final trailing byte is read past but contributes nothing (dropping it
leaves the unit list unchanged) — and the cursor still advances by the full
4 + len bytes. -/
theorem utf16_odd_trailing_byte :
    ∀ (hdr : Header) (buf : List Nat) (pos len : Nat),
      hdr.encoding = .utf16 →
      dReadU32 buf pos = some (len, pos + 4) →
      len % 2 = 1 →
      pos + 4 + len ≤ buf.length →
      dReadString hdr buf pos =
        some (decodeUtf16Lossy (utf16Units ((buf.drop (pos + 4)).take len)), pos + 4 + len)
      ∧ utf16Units ((buf.drop (pos + 4)).take len) =
          utf16Units (((buf.drop (pos + 4)).take len).take (len - 1))
      ∧ (utf16Units ((buf.drop (pos + 4)).take len)).length = len / 2 := by
  intro hdr buf pos len henc hlen hodd hfit
  have hpayload : ((buf.drop (pos + 4)).take len).length = len := by
    rw [List.length_take, List.length_drop]
    omega
  refine ⟨?_, ?_, ?_⟩
  · rw [dReadString_run hlen (by omega) hfit, henc]
    rfl
  · have h := utf16Units_take_even ((buf.drop (pos + 4)).take len) (by rw [hpayload]; exact hodd)
    rwa [hpayload] at h
  · rw [utf16Units_length, hpayload]

/-- Witness for C9: a 3-byte UTF-16 payload decodes from its single code
unit, ignoring the trailing byte 0x42, and the cursor lands at 7. -/
theorem utf16_odd_trailing_byte_witness :
    dReadString hdrUtf16 [3, 0, 0, 0, 0x41, 0x00, 0x42] 0 = some ([0x41], 7) := by
  have h := (utf16_odd_trailing_byte hdrUtf16 [3, 0, 0, 0, 0x41, 0x00, 0x42] 0 3 rfl
    (by decide) (by decide) (by decide)).1
  rw [h]
  norm_num [utf16Units, decodeUtf16Lossy]

theorem decodeUtf16Lossy_enc_cons (c : Nat) (h : isScalar c) (rest : List Nat) :
    decodeUtf16Lossy (encodeUtf16Char c ++ rest) = c :: decodeUtf16Lossy rest := by
  obtain ⟨hlt, hs⟩ := h
  unfold encodeUtf16Char
  by_cases hc : c < 0x10000
  · rw [if_pos hc, show ([c] ++ rest) = c :: rest from rfl]
    rw [decodeUtf16Lossy.eq_def]
    simp only
    rw [if_pos hs]
  · rw [if_neg hc]
    rw [show ([0xD800 + (c - 0x10000) / 0x400, 0xDC00 + (c - 0x10000) % 0x400] ++ rest) =
      (0xD800 + (c - 0x10000) / 0x400) :: (0xDC00 + (c - 0x10000) % 0x400) :: rest from rfl]
    rw [decodeUtf16Lossy.eq_def]
    simp only
    rw [if_neg (by omega), if_pos (by omega), if_pos (by constructor <;> omega)]
    rw [show 0xD800 + (c - 0x10000) / 0x400 - 0xD800 = (c - 0x10000) / 0x400 from by omega]
    rw [show 0xDC00 + (c - 0x10000) % 0x400 - 0xDC00 = (c - 0x10000) % 0x400 from by omega]
    rw [show 0x10000 + (c - 0x10000) / 0x400 * 0x400 + (c - 0x10000) % 0x400 = c from by omega]

theorem decodeUtf16Lossy_encode (cs : List Nat) (h : ∀ c ∈ cs, isScalar c) :
    decodeUtf16Lossy (cs.flatMap encodeUtf16Char) = cs := by
  induction cs with
  | nil => simp [decodeUtf16Lossy]
  | cons c cs ih =>
    rw [show (c :: cs).flatMap encodeUtf16Char =
      encodeUtf16Char c ++ cs.flatMap encodeUtf16Char from rfl]
    rw [decodeUtf16Lossy_enc_cons c (h c (by simp)) _]
    rw [ih (fun x hx => h x (by simp [hx]))]

theorem decodeUtf8Lossy_enc_cons (c : Nat) (h : isScalar c) (rest : List Nat) :
    decodeUtf8Lossy (encodeUtf8Char c ++ rest) = c :: decodeUtf8Lossy rest := by
  obtain ⟨hlt, hs⟩ := h
  unfold encodeUtf8Char
  by_cases h1 : c < 0x80
  · rw [if_pos h1, show ([c] ++ rest) = c :: rest from rfl]
    rw [decodeUtf8Lossy.eq_def]
    simp only
    rw [if_pos h1]
  · rw [if_neg h1]
    by_cases h2 : c < 0x800
    · rw [if_pos h2, show ([0xC0 + c / 64, 0x80 + c % 64] ++ rest) =
        (0xC0 + c / 64) :: (0x80 + c % 64) :: rest from rfl]
      rw [decodeUtf8Lossy.eq_def]
      simp only
      rw [if_neg (by omega), if_neg (by omega), if_pos (by omega),
        if_pos (show isCont (0x80 + c % 64) from by unfold isCont; omega)]
      rw [show 0xC0 + c / 64 - 0xC0 = c / 64 from by omega]
      rw [show 0x80 + c % 64 - 0x80 = c % 64 from by omega]
      rw [show c / 64 * 64 + c % 64 = c from by omega]
    · rw [if_neg h2]
      by_cases h3 : c < 0x10000
      · rw [if_pos h3, show ([0xE0 + c / 4096, 0x80 + c / 64 % 64, 0x80 + c % 64] ++ rest) =
          (0xE0 + c / 4096) :: (0x80 + c / 64 % 64) :: (0x80 + c % 64) :: rest from rfl]
        rw [decodeUtf8Lossy.eq_def]
        simp only
        have hval : (if 0xE0 + c / 4096 = 0xE0 then
            0xA0 ≤ 0x80 + c / 64 % 64 ∧ 0x80 + c / 64 % 64 < 0xC0
          else if 0xE0 + c / 4096 = 0xED then
            0x80 ≤ 0x80 + c / 64 % 64 ∧ 0x80 + c / 64 % 64 < 0xA0
          else isCont (0x80 + c / 64 % 64)) := by
          split
          · constructor <;> omega
          · split
            · rcases hs with hs | hs
              · constructor <;> omega
              · omega
            · unfold isCont
              omega
        rw [if_neg (by omega), if_neg (by omega), if_neg (by omega), if_pos (by omega),
          if_pos hval, if_pos (show isCont (0x80 + c % 64) from by unfold isCont; omega)]
        rw [show 0xE0 + c / 4096 - 0xE0 = c / 4096 from by omega]
        rw [show 0x80 + c / 64 % 64 - 0x80 = c / 64 % 64 from by omega]
        rw [show 0x80 + c % 64 - 0x80 = c % 64 from by omega]
        rw [show c / 4096 * 4096 + c / 64 % 64 * 64 + c % 64 = c from by omega]
      · rw [if_neg h3, show ([0xF0 + c / 262144, 0x80 + c / 4096 % 64, 0x80 + c / 64 % 64,
          0x80 + c % 64] ++ rest) = (0xF0 + c / 262144) :: (0x80 + c / 4096 % 64) ::
          (0x80 + c / 64 % 64) :: (0x80 + c % 64) :: rest from rfl]
        rw [decodeUtf8Lossy.eq_def]
        simp only
        have hval : (if 0xF0 + c / 262144 = 0xF0 then
            0x90 ≤ 0x80 + c / 4096 % 64 ∧ 0x80 + c / 4096 % 64 < 0xC0
          else if 0xF0 + c / 262144 = 0xF4 then
            0x80 ≤ 0x80 + c / 4096 % 64 ∧ 0x80 + c / 4096 % 64 < 0x90
          else isCont (0x80 + c / 4096 % 64)) := by
          split
          · constructor <;> omega
          · split
            · constructor <;> omega
            · unfold isCont
              omega
        rw [if_neg (by omega), if_neg (by omega), if_neg (by omega), if_neg (by omega),
          if_pos (by omega), if_pos hval,
          if_pos (show isCont (0x80 + c / 64 % 64) from by unfold isCont; omega),
          if_pos (show isCont (0x80 + c % 64) from by unfold isCont; omega)]
        rw [show 0xF0 + c / 262144 - 0xF0 = c / 262144 from by omega]
        rw [show 0x80 + c / 4096 % 64 - 0x80 = c / 4096 % 64 from by omega]
        rw [show 0x80 + c / 64 % 64 - 0x80 = c / 64 % 64 from by omega]
        rw [show 0x80 + c % 64 - 0x80 = c % 64 from by omega]
        rw [show c / 262144 * 262144 + c / 4096 % 64 * 4096 + c / 64 % 64 * 64 + c % 64 = c
          from by omega]

theorem decodeUtf8Lossy_encode (cs : List Nat) (h : ∀ c ∈ cs, isScalar c) :
    decodeUtf8Lossy (cs.flatMap encodeUtf8Char) = cs := by
  induction cs with
  | nil => simp [decodeUtf8Lossy]
  | cons c cs ih =>
    rw [show (c :: cs).flatMap encodeUtf8Char =
      encodeUtf8Char c ++ cs.flatMap encodeUtf8Char from rfl]
    rw [decodeUtf8Lossy_enc_cons c (h c (by simp)) _]
    rw [ih (fun x hx => h x (by simp [hx]))]

/-- C8: string decoding never fails hard.  A zero-length 4-byte prefix
yields the empty string under both encodings; with the declared payload
present, `read_string` always succeeds, applying the lossy decode to the
payload bytes regardless of their contents; the lossy decoders recover any
well-formed UTF-16LE or UTF-8 text exactly; and malformed input (a stray
0xFF byte, an unpaired surrogate) decodes to the replacement character
rather than failing. -/
theorem string_decoding_total_lossless :
    (∀ (hdr : Header) (buf : List Nat) (pos : Nat),
      dReadU32 buf pos = some (0, pos + 4) →
      dReadString hdr buf pos = some ([], pos + 4))
    ∧ (∀ (hdr : Header) (buf : List Nat) (pos len : Nat),
        dReadU32 buf pos = some (len, pos + 4) → len ≠ 0 → pos + 4 + len ≤ buf.length →
        dReadString hdr buf pos =
          some (strDecode hdr.encoding ((buf.drop (pos + 4)).take len), pos + 4 + len))
    ∧ (∀ cs : List Nat, (∀ c ∈ cs, isScalar c) →
        decodeUtf16Lossy (cs.flatMap encodeUtf16Char) = cs)
    ∧ (∀ cs : List Nat, (∀ c ∈ cs, isScalar c) →
        decodeUtf8Lossy (cs.flatMap encodeUtf8Char) = cs)
    ∧ decodeUtf8Lossy [0xFF] = [replacementChar]
    ∧ decodeUtf16Lossy [0xD800] = [replacementChar] :=
  ⟨fun _ _ _ h => dReadString_zero h,
   fun _ _ _ _ h hne hfit => dReadString_run h hne hfit,
   decodeUtf16Lossy_encode, decodeUtf8Lossy_encode,
   by simp [decodeUtf8Lossy], by simp [decodeUtf16Lossy]⟩

/-- Witness for C8: empty strings under both encodings, an ASCII UTF-8
payload decoding losslessly, and a Hiragana code point surviving the
UTF-16 round trip. -/
theorem string_decoding_total_lossless_witness :
    dReadString hdrOne [0, 0, 0, 0] 0 = some ([], 4)
    ∧ dReadString hdrUtf16 [0, 0, 0, 0] 0 = some ([], 4)
    ∧ dReadString hdrOne [2, 0, 0, 0, 0x61, 0x62] 0 = some ([0x61, 0x62], 6)
    ∧ decodeUtf16Lossy ([0x3042].flatMap encodeUtf16Char) = [0x3042] := by
  obtain ⟨z, r, u16, u8, _, _⟩ := string_decoding_total_lossless
  refine ⟨z hdrOne _ 0 (by decide), z hdrUtf16 _ 0 (by decide), ?_,
    u16 [0x3042] (by decide)⟩
  have hrun := r hdrOne [2, 0, 0, 0, 0x61, 0x62] 0 2 (by decide) (by decide) (by decide)
  rw [hrun]
  norm_num [hdrOne, strDecode, decodeUtf8Lossy]

end Pmx
